import Mathlib

/-!
# Binding core of hwloc (`src/bind.c`)

A shallow embedding of the mask normalisation and of the dispatch to the
backend hooks, followed by the properties proved about them.

Conventions of the embedding:

* a bitmap is a finite set of indices; a `NULL` bitmap pointer is `none`;
* a pointer to memory is a natural number, `0` standing for `NULL`;
* `int` values (return codes, flags, policies, `errno`) are integers;
* a C function that touches `errno`, calls a backend hook or the allocator is
  a function from the state before the call to its result and the state after.
-/

namespace Hwloc

/-! ## Collaborators outside `bind.c` -/

/-- Modelled from the spec: the bitmap type (`hwloc_bitmap_t`, with its aliases
`hwloc_cpuset_t` and `hwloc_nodeset_t`) is an external collaborator, "ordered
set of non-negative integer indices". -/
abbrev Bitmap := Finset Nat

/-- Modelled from the spec: the inclusion test of the bitmap type,
`hwloc_bitmap_isincluded(sub, super)`, true when `sub` is a subset of `super`. -/
def hwloc_bitmap_isincluded (sub super : Bitmap) : Bool :=
  decide (sub ⊆ super)

/-- A pointer to memory; `0` is `NULL`. -/
abbrev Ptr := Nat

/-- The value of `errno.h`'s `EXDEV` (Linux numbering). -/
def EXDEV : Int := 18
/-- The value of `errno.h`'s `ENODEV` (Linux numbering). -/
def ENODEV : Int := 19
/-- The value of `errno.h`'s `EINVAL` (Linux numbering). -/
def EINVAL : Int := 22
/-- The value of `errno.h`'s `ENOSYS` (Linux numbering). -/
def ENOSYS : Int := 38

/-- Modelled from the spec: `hwloc.h` is not part of the sources; the flags are
"independent bits, composable", here with the values of `hwloc.h`. -/
def HWLOC_CPUBIND_PROCESS : Int := 1
/-- Modelled from the spec: the thread scope bit of a cpu binding request. -/
def HWLOC_CPUBIND_THREAD : Int := 2
/-- Modelled from the spec: the process scope bit of a memory binding request. -/
def HWLOC_MEMBIND_PROCESS : Int := 1
/-- Modelled from the spec: the thread scope bit of a memory binding request. -/
def HWLOC_MEMBIND_THREAD : Int := 2
/-- Modelled from the spec: the strict bit of a memory binding request. -/
def HWLOC_MEMBIND_STRICT : Int := 4
/-- Modelled from the spec: the migrate bit of a memory binding request. -/
def HWLOC_MEMBIND_MIGRATE : Int := 8

/-- The C test `flags & bit`, as a truth value. -/
def flag_set (flags bit : Int) : Bool :=
  decide (Int.land flags bit ≠ 0)

/-- An external call as this file observes it: from the value of `errno` at the
call to the value the call returns and the value of `errno` after it. -/
abbrev Ext (α : Type) := Int → α × Int

/-- One call that leaves `bind.c`: a backend hook of the topology with the
arguments it receives (the topology apart), the generic allocator, or `free`. -/
inductive Call where
  | set_thisproc_cpubind (set : Bitmap) (flags : Int)
  | get_thisproc_cpubind (set : Bitmap) (flags : Int)
  | set_thisthread_cpubind (set : Bitmap) (flags : Int)
  | get_thisthread_cpubind (set : Bitmap) (flags : Int)
  | set_proc_cpubind (pid : Nat) (set : Bitmap) (flags : Int)
  | get_proc_cpubind (pid : Nat) (set : Bitmap) (flags : Int)
  | set_thread_cpubind (tid : Nat) (set : Bitmap) (flags : Int)
  | get_thread_cpubind (tid : Nat) (set : Bitmap) (flags : Int)
  | set_thisproc_membind (nodeset : Bitmap) (policy flags : Int)
  | get_thisproc_membind (nodeset : Bitmap) (policy flags : Int)
  | set_thisthread_membind (nodeset : Bitmap) (policy flags : Int)
  | get_thisthread_membind (nodeset : Bitmap) (policy flags : Int)
  | set_proc_membind (pid : Nat) (nodeset : Bitmap) (policy flags : Int)
  | get_proc_membind (pid : Nat) (nodeset : Bitmap) (policy flags : Int)
  | set_area_membind (addr : Ptr) (len : Nat) (nodeset : Bitmap) (policy flags : Int)
  | get_area_membind (addr : Ptr) (len : Nat) (nodeset : Bitmap) (policy flags : Int)
  | alloc_membind (len : Nat) (nodeset : Bitmap) (policy flags : Int)
  | free_membind (addr : Ptr) (len : Nat)
  | allocate (len : Nat)
  | free (addr : Ptr)
  deriving DecidableEq

/-- The part of `struct hwloc_topology` that `bind.c` reads: the four masks
behind `hwloc_topology_get_topology_cpuset`, `hwloc_topology_get_complete_cpuset`
and the root object's `nodeset` and `complete_nodeset`, the two conversions of
`hwloc/helper.h`, and the optional backend hooks. A get hook receives the
current content of the caller's buffers and returns their new content after its
return code. -/
structure Topology where
  topology_cpuset : Option Bitmap
  complete_cpuset : Bitmap
  nodeset : Bitmap
  complete_nodeset : Option Bitmap
  cpuset_to_nodeset : Bitmap → Bitmap
  cpuset_from_nodeset : Bitmap → Bitmap
  set_thisproc_cpubind : Option (Bitmap → Int → Ext Int)
  get_thisproc_cpubind : Option (Bitmap → Int → Ext (Int × Bitmap))
  set_thisthread_cpubind : Option (Bitmap → Int → Ext Int)
  get_thisthread_cpubind : Option (Bitmap → Int → Ext (Int × Bitmap))
  set_proc_cpubind : Option (Nat → Bitmap → Int → Ext Int)
  get_proc_cpubind : Option (Nat → Bitmap → Int → Ext (Int × Bitmap))
  set_thread_cpubind : Option (Nat → Bitmap → Int → Ext Int)
  get_thread_cpubind : Option (Nat → Bitmap → Int → Ext (Int × Bitmap))
  set_thisproc_membind : Option (Bitmap → Int → Int → Ext Int)
  get_thisproc_membind : Option (Bitmap → Int → Int → Ext (Int × Bitmap × Int))
  set_thisthread_membind : Option (Bitmap → Int → Int → Ext Int)
  get_thisthread_membind : Option (Bitmap → Int → Int → Ext (Int × Bitmap × Int))
  set_proc_membind : Option (Nat → Bitmap → Int → Int → Ext Int)
  get_proc_membind : Option (Nat → Bitmap → Int → Int → Ext (Int × Bitmap × Int))
  set_area_membind : Option (Ptr → Nat → Bitmap → Int → Int → Ext Int)
  get_area_membind : Option (Ptr → Nat → Bitmap → Int → Int → Ext (Int × Bitmap × Int))
  alloc_membind : Option (Nat → Bitmap → Int → Int → Ext Ptr)
  free_membind : Option (Ptr → Nat → Ext Int)

/-- Which of the three bodies of `hwloc_allocate` the build configuration
selects. -/
inductive AllocConfig where
  | posix_memalign
  | memalign
  | malloc
  deriving DecidableEq

/-- The C library as `bind.c` uses it. `posix_memalign alignment size` gives its
return code and the pointer it stores; `free addr` gives what it does to
`errno`. -/
structure Libc where
  config : AllocConfig
  getpagesize : Nat
  posix_memalign : Nat → Nat → Int × Ptr
  memalign : Nat → Nat → Ext Ptr
  malloc : Nat → Ext Ptr
  free : Ptr → Int → Int

/-- What a call can change and leave behind: `errno`, the calls that left the
file so far (oldest first), the blocks of the generic allocator not yet
released, and the number of temporary bitmaps not yet released. -/
structure State where
  errno : Int
  calls : List Call
  live_blocks : List Ptr
  live_bitmaps : Int
  deriving DecidableEq

/-- The assignment `errno = e`. -/
def set_errno (e : Int) (s : State) : State :=
  { s with errno := e }

/-- A call of an external function `f`, recorded as `c`. -/
def invoke {α : Type} (c : Call) (f : Ext α) (s : State) : α × State :=
  ((f s.errno).1, { s with errno := (f s.errno).2, calls := s.calls ++ [c] })

/-- Modelled from the spec: `hwloc_bitmap_alloc` belongs to the external bitmap
type; it yields a new empty bitmap, counted as live. -/
def hwloc_bitmap_alloc (s : State) : Bitmap × State :=
  (∅, { s with live_bitmaps := s.live_bitmaps + 1 })

/-- Modelled from the spec: `hwloc_bitmap_free` belongs to the external bitmap
type; it releases a temporary bitmap and leaves `errno` as it is. -/
def hwloc_bitmap_free (s : State) : State :=
  { s with live_bitmaps := s.live_bitmaps - 1 }

/-- The C library's `free(addr)`. -/
def free (libc : Libc) (addr : Ptr) (s : State) : State :=
  { s with errno := libc.free addr s.errno,
           calls := s.calls ++ [Call.free addr],
           live_blocks := s.live_blocks.erase addr }

/-- Bookkeeping of the generic allocator: the request is recorded, and a block
that is not `NULL` becomes live. -/
def allocated (len : Nat) (p : Ptr) (s : State) : State :=
  { s with calls := s.calls ++ [Call.allocate len],
           live_blocks := if p = 0 then s.live_blocks else p :: s.live_blocks }

/-! ## The functions of `bind.c` -/

/-- The function `hwloc_fix_cpubind`: the mask to hand to a backend, or `NULL`
with `errno` set. -/
def hwloc_fix_cpubind (topology : Topology) (set : Bitmap) (s : State) :
    Option Bitmap × State :=
  match topology.topology_cpuset with
  | none => (none, set_errno EXDEV s)
  | some topology_set =>
    if !hwloc_bitmap_isincluded set topology.complete_cpuset then
      (none, set_errno EINVAL s)
    else if hwloc_bitmap_isincluded topology_set set then
      (some topology.complete_cpuset, s)
    else
      (some set, s)

/-- The function `hwloc_set_cpubind`. -/
def hwloc_set_cpubind (topology : Topology) (set : Bitmap) (flags : Int) (s : State) :
    Int × State :=
  match hwloc_fix_cpubind topology set s with
  | (none, s) => (-1, s)
  | (some set, s) =>
    if flag_set flags HWLOC_CPUBIND_PROCESS then
      match topology.set_thisproc_cpubind with
      | some hook => invoke (Call.set_thisproc_cpubind set flags) (hook set flags) s
      | none => (-1, set_errno ENOSYS s)
    else if flag_set flags HWLOC_CPUBIND_THREAD then
      match topology.set_thisthread_cpubind with
      | some hook => invoke (Call.set_thisthread_cpubind set flags) (hook set flags) s
      | none => (-1, set_errno ENOSYS s)
    else
      match topology.set_thisproc_cpubind with
      | some hook => invoke (Call.set_thisproc_cpubind set flags) (hook set flags) s
      | none =>
        match topology.set_thisthread_cpubind with
        | some hook => invoke (Call.set_thisthread_cpubind set flags) (hook set flags) s
        | none => (-1, set_errno ENOSYS s)

/-- The function `hwloc_get_cpubind`; next to the return code, the content of
the caller's `set` after the call. -/
def hwloc_get_cpubind (topology : Topology) (set : Bitmap) (flags : Int) (s : State) :
    (Int × Bitmap) × State :=
  if flag_set flags HWLOC_CPUBIND_PROCESS then
    match topology.get_thisproc_cpubind with
    | some hook => invoke (Call.get_thisproc_cpubind set flags) (hook set flags) s
    | none => ((-1, set), set_errno ENOSYS s)
  else if flag_set flags HWLOC_CPUBIND_THREAD then
    match topology.get_thisthread_cpubind with
    | some hook => invoke (Call.get_thisthread_cpubind set flags) (hook set flags) s
    | none => ((-1, set), set_errno ENOSYS s)
  else
    match topology.get_thisproc_cpubind with
    | some hook => invoke (Call.get_thisproc_cpubind set flags) (hook set flags) s
    | none =>
      match topology.get_thisthread_cpubind with
      | some hook => invoke (Call.get_thisthread_cpubind set flags) (hook set flags) s
      | none => ((-1, set), set_errno ENOSYS s)

/-- The function `hwloc_set_proc_cpubind`. -/
def hwloc_set_proc_cpubind (topology : Topology) (pid : Nat) (set : Bitmap) (flags : Int)
    (s : State) : Int × State :=
  match hwloc_fix_cpubind topology set s with
  | (none, s) => (-1, s)
  | (some set, s) =>
    match topology.set_proc_cpubind with
    | some hook => invoke (Call.set_proc_cpubind pid set flags) (hook pid set flags) s
    | none => (-1, set_errno ENOSYS s)

/-- The function `hwloc_get_proc_cpubind`. -/
def hwloc_get_proc_cpubind (topology : Topology) (pid : Nat) (set : Bitmap) (flags : Int)
    (s : State) : (Int × Bitmap) × State :=
  match topology.get_proc_cpubind with
  | some hook => invoke (Call.get_proc_cpubind pid set flags) (hook pid set flags) s
  | none => ((-1, set), set_errno ENOSYS s)

/-- The function `hwloc_set_thread_cpubind` (compiled where `hwloc_thread_t`
exists). -/
def hwloc_set_thread_cpubind (topology : Topology) (tid : Nat) (set : Bitmap) (flags : Int)
    (s : State) : Int × State :=
  match hwloc_fix_cpubind topology set s with
  | (none, s) => (-1, s)
  | (some set, s) =>
    match topology.set_thread_cpubind with
    | some hook => invoke (Call.set_thread_cpubind tid set flags) (hook tid set flags) s
    | none => (-1, set_errno ENOSYS s)

/-- The function `hwloc_get_thread_cpubind` (compiled where `hwloc_thread_t`
exists). -/
def hwloc_get_thread_cpubind (topology : Topology) (tid : Nat) (set : Bitmap) (flags : Int)
    (s : State) : (Int × Bitmap) × State :=
  match topology.get_thread_cpubind with
  | some hook => invoke (Call.get_thread_cpubind tid set flags) (hook tid set flags) s
  | none => ((-1, set), set_errno ENOSYS s)

/-- The function `hwloc_fix_membind`: the node set to hand to a backend, or
`NULL` with `errno` set. -/
def hwloc_fix_membind (topology : Topology) (nodeset : Bitmap) (s : State) :
    Option Bitmap × State :=
  match topology.topology_cpuset with
  | none => (none, set_errno EXDEV s)
  | some _ =>
    match topology.complete_nodeset with
    | none => (none, set_errno ENODEV s)
    | some complete_nodeset =>
      if !hwloc_bitmap_isincluded nodeset complete_nodeset then
        (none, set_errno EINVAL s)
      else if hwloc_bitmap_isincluded topology.nodeset nodeset then
        (some complete_nodeset, s)
      else
        (some nodeset, s)

/-- The function `hwloc_fix_membind_cpuset`; next to the return code, the
content of the caller's `nodeset` after the call. -/
def hwloc_fix_membind_cpuset (topology : Topology) (nodeset : Bitmap) (cpuset : Bitmap)
    (s : State) : (Int × Bitmap) × State :=
  match topology.topology_cpuset with
  | none => ((-1, nodeset), set_errno EXDEV s)
  | some topology_set =>
    match topology.complete_nodeset with
    | none => ((-1, nodeset), set_errno ENODEV s)
    | some complete_nodeset =>
      if !hwloc_bitmap_isincluded cpuset topology.complete_cpuset then
        ((-1, nodeset), set_errno EINVAL s)
      else if hwloc_bitmap_isincluded topology_set cpuset then
        ((0, complete_nodeset), s)
      else
        ((0, topology.cpuset_to_nodeset cpuset), s)

/-- The function `hwloc_set_membind_nodeset`. -/
def hwloc_set_membind_nodeset (topology : Topology) (nodeset : Bitmap) (policy flags : Int)
    (s : State) : Int × State :=
  match hwloc_fix_membind topology nodeset s with
  | (none, s) => (-1, s)
  | (some nodeset, s) =>
    if flag_set flags HWLOC_MEMBIND_PROCESS then
      match topology.set_thisproc_membind with
      | some hook =>
        invoke (Call.set_thisproc_membind nodeset policy flags) (hook nodeset policy flags) s
      | none => (-1, set_errno ENOSYS s)
    else if flag_set flags HWLOC_MEMBIND_THREAD then
      match topology.set_thisthread_membind with
      | some hook =>
        invoke (Call.set_thisthread_membind nodeset policy flags) (hook nodeset policy flags) s
      | none => (-1, set_errno ENOSYS s)
    else
      match topology.set_thisproc_membind with
      | some hook =>
        invoke (Call.set_thisproc_membind nodeset policy flags) (hook nodeset policy flags) s
      | none =>
        match topology.set_thisthread_membind with
        | some hook =>
          invoke (Call.set_thisthread_membind nodeset policy flags) (hook nodeset policy flags) s
        | none => (-1, set_errno ENOSYS s)

/-- The function `hwloc_set_membind`. -/
def hwloc_set_membind (topology : Topology) (set : Bitmap) (policy flags : Int)
    (s : State) : Int × State :=
  match hwloc_bitmap_alloc s with
  | (nodeset, s) =>
    match hwloc_fix_membind_cpuset topology nodeset set s with
    | ((r, nodeset), s) =>
      if r ≠ 0 then
        (-1, hwloc_bitmap_free s)
      else
        match hwloc_set_membind_nodeset topology nodeset policy flags s with
        | (ret, s) => (ret, hwloc_bitmap_free s)

/-- The function `hwloc_get_membind_nodeset`; next to the return code, the
content of the caller's `nodeset` and `*policy` after the call. -/
def hwloc_get_membind_nodeset (topology : Topology) (nodeset : Bitmap) (policy flags : Int)
    (s : State) : (Int × Bitmap × Int) × State :=
  if flag_set flags HWLOC_MEMBIND_PROCESS then
    match topology.get_thisproc_membind with
    | some hook =>
      invoke (Call.get_thisproc_membind nodeset policy flags) (hook nodeset policy flags) s
    | none => ((-1, nodeset, policy), set_errno ENOSYS s)
  else if flag_set flags HWLOC_MEMBIND_THREAD then
    match topology.get_thisthread_membind with
    | some hook =>
      invoke (Call.get_thisthread_membind nodeset policy flags) (hook nodeset policy flags) s
    | none => ((-1, nodeset, policy), set_errno ENOSYS s)
  else
    match topology.get_thisproc_membind with
    | some hook =>
      invoke (Call.get_thisproc_membind nodeset policy flags) (hook nodeset policy flags) s
    | none =>
      match topology.get_thisthread_membind with
      | some hook =>
        invoke (Call.get_thisthread_membind nodeset policy flags) (hook nodeset policy flags) s
      | none => ((-1, nodeset, policy), set_errno ENOSYS s)

/-- The function `hwloc_get_membind`; next to the return code, the content of
the caller's `set` and `*policy` after the call. -/
def hwloc_get_membind (topology : Topology) (set : Bitmap) (policy flags : Int)
    (s : State) : (Int × Bitmap × Int) × State :=
  match hwloc_bitmap_alloc s with
  | (nodeset, s) =>
    match hwloc_get_membind_nodeset topology nodeset policy flags s with
    | ((ret, nodeset, policy), s) =>
      if ret = 0 then
        ((ret, topology.cpuset_from_nodeset nodeset, policy), s)
      else
        ((ret, set, policy), s)

/-- The function `hwloc_set_proc_membind_nodeset`. -/
def hwloc_set_proc_membind_nodeset (topology : Topology) (pid : Nat) (nodeset : Bitmap)
    (policy flags : Int) (s : State) : Int × State :=
  match hwloc_fix_membind topology nodeset s with
  | (none, s) => (-1, s)
  | (some nodeset, s) =>
    match topology.set_proc_membind with
    | some hook =>
      invoke (Call.set_proc_membind pid nodeset policy flags) (hook pid nodeset policy flags) s
    | none => (-1, set_errno ENOSYS s)

/-- The function `hwloc_set_proc_membind`. -/
def hwloc_set_proc_membind (topology : Topology) (pid : Nat) (set : Bitmap)
    (policy flags : Int) (s : State) : Int × State :=
  match hwloc_bitmap_alloc s with
  | (nodeset, s) =>
    match hwloc_fix_membind_cpuset topology nodeset set s with
    | ((r, nodeset), s) =>
      if r ≠ 0 then
        (-1, hwloc_bitmap_free s)
      else
        match hwloc_set_proc_membind_nodeset topology pid nodeset policy flags s with
        | (ret, s) => (ret, hwloc_bitmap_free s)

/-- The function `hwloc_get_proc_membind_nodeset`. -/
def hwloc_get_proc_membind_nodeset (topology : Topology) (pid : Nat) (nodeset : Bitmap)
    (policy flags : Int) (s : State) : (Int × Bitmap × Int) × State :=
  match topology.get_proc_membind with
  | some hook =>
    invoke (Call.get_proc_membind pid nodeset policy flags) (hook pid nodeset policy flags) s
  | none => ((-1, nodeset, policy), set_errno ENOSYS s)

/-- The function `hwloc_get_proc_membind`. -/
def hwloc_get_proc_membind (topology : Topology) (pid : Nat) (set : Bitmap)
    (policy flags : Int) (s : State) : (Int × Bitmap × Int) × State :=
  match hwloc_bitmap_alloc s with
  | (nodeset, s) =>
    match hwloc_get_proc_membind_nodeset topology pid nodeset policy flags s with
    | ((ret, nodeset, policy), s) =>
      if ret = 0 then
        ((ret, topology.cpuset_from_nodeset nodeset, policy), s)
      else
        ((ret, set, policy), s)

/-- The function `hwloc_set_area_membind_nodeset`. -/
def hwloc_set_area_membind_nodeset (topology : Topology) (addr : Ptr) (len : Nat)
    (nodeset : Bitmap) (policy flags : Int) (s : State) : Int × State :=
  match hwloc_fix_membind topology nodeset s with
  | (none, s) => (-1, s)
  | (some nodeset, s) =>
    match topology.set_area_membind with
    | some hook =>
      invoke (Call.set_area_membind addr len nodeset policy flags)
        (hook addr len nodeset policy flags) s
    | none => (-1, set_errno ENOSYS s)

/-- The function `hwloc_set_area_membind`. -/
def hwloc_set_area_membind (topology : Topology) (addr : Ptr) (len : Nat) (set : Bitmap)
    (policy flags : Int) (s : State) : Int × State :=
  match hwloc_bitmap_alloc s with
  | (nodeset, s) =>
    match hwloc_fix_membind_cpuset topology nodeset set s with
    | ((r, nodeset), s) =>
      if r ≠ 0 then
        (-1, hwloc_bitmap_free s)
      else
        match hwloc_set_area_membind_nodeset topology addr len nodeset policy flags s with
        | (ret, s) => (ret, hwloc_bitmap_free s)

/-- The function `hwloc_get_area_membind_nodeset`. -/
def hwloc_get_area_membind_nodeset (topology : Topology) (addr : Ptr) (len : Nat)
    (nodeset : Bitmap) (policy flags : Int) (s : State) : (Int × Bitmap × Int) × State :=
  match topology.get_area_membind with
  | some hook =>
    invoke (Call.get_area_membind addr len nodeset policy flags)
      (hook addr len nodeset policy flags) s
  | none => ((-1, nodeset, policy), set_errno ENOSYS s)

/-- The function `hwloc_get_area_membind`. -/
def hwloc_get_area_membind (topology : Topology) (addr : Ptr) (len : Nat) (set : Bitmap)
    (policy flags : Int) (s : State) : (Int × Bitmap × Int) × State :=
  match hwloc_bitmap_alloc s with
  | (nodeset, s) =>
    match hwloc_get_area_membind_nodeset topology addr len nodeset policy flags s with
    | ((ret, nodeset, policy), s) =>
      if ret = 0 then
        ((ret, topology.cpuset_from_nodeset nodeset, policy), s)
      else
        ((ret, set, policy), s)

/-- The function `hwloc_allocate`, in the body the configuration selects. With
`posix_memalign` its return code is stored in `errno` and the pointer is
`NULL` when that code is not zero. -/
def hwloc_allocate (libc : Libc) (len : Nat) (s : State) : Ptr × State :=
  match libc.config with
  | AllocConfig.posix_memalign =>
    let r := libc.posix_memalign libc.getpagesize len
    let p := if r.1 ≠ 0 then 0 else r.2
    (p, allocated len p (set_errno r.1 s))
  | AllocConfig.memalign =>
    let r := libc.memalign libc.getpagesize len s.errno
    (r.1, allocated len r.1 (set_errno r.2 s))
  | AllocConfig.malloc =>
    let r := libc.malloc len s.errno
    (r.1, allocated len r.1 (set_errno r.2 s))

/-- The function `hwloc_alloc_membind_nodeset`. -/
def hwloc_alloc_membind_nodeset (topology : Topology) (libc : Libc) (len : Nat)
    (nodeset : Bitmap) (policy flags : Int) (s : State) : Ptr × State :=
  match hwloc_fix_membind topology nodeset s with
  | (none, s) => (0, s)
  | (some nodeset, s) =>
    if flag_set flags HWLOC_MEMBIND_MIGRATE then
      (0, set_errno EINVAL s)
    else
      match topology.alloc_membind with
      | some hook =>
        invoke (Call.alloc_membind len nodeset policy flags) (hook len nodeset policy flags) s
      | none =>
        match topology.set_area_membind with
        | some hook =>
          match hwloc_allocate libc len s with
          | (p, s) =>
            if p = 0 then
              (0, s)
            else
              match invoke (Call.set_area_membind p len nodeset policy flags)
                  (hook p len nodeset policy flags) s with
              | (r, s) =>
                if r ≠ 0 ∧ flag_set flags HWLOC_MEMBIND_STRICT then
                  let error := s.errno
                  (0, set_errno error (free libc p s))
                else
                  (p, s)
        | none =>
          if !flag_set flags HWLOC_MEMBIND_STRICT then
            hwloc_allocate libc len s
          else
            (0, set_errno ENOSYS s)

/-- The function `hwloc_alloc_membind`. -/
def hwloc_alloc_membind (topology : Topology) (libc : Libc) (len : Nat) (set : Bitmap)
    (policy flags : Int) (s : State) : Ptr × State :=
  match hwloc_bitmap_alloc s with
  | (nodeset, s) =>
    match hwloc_fix_membind_cpuset topology nodeset set s with
    | ((r, nodeset), s) =>
      if r ≠ 0 then
        (0, hwloc_bitmap_free s)
      else
        match hwloc_alloc_membind_nodeset topology libc len nodeset policy flags s with
        | (ret, s) => (ret, hwloc_bitmap_free s)

/-- The function `hwloc_free_membind`. -/
def hwloc_free_membind (topology : Topology) (libc : Libc) (addr : Ptr) (len : Nat)
    (s : State) : Int × State :=
  match topology.free_membind with
  | some hook => invoke (Call.free_membind addr len) (hook addr len) s
  | none =>
    match topology.set_area_membind with
    | some _ => (-1, set_errno ENOSYS (free libc addr s))
    | none => (-1, set_errno ENOSYS s)

/-! ## Vocabulary of the statements -/

/-- What a public function of the file returns: a status, or a pointer. -/
inductive Ret where
  | status (r : Int)
  | pointer (p : Ptr)
  deriving DecidableEq

/-- The failure values: status `-1`, pointer `NULL`. -/
def Ret.failed : Ret → Bool
  | Ret.status r => decide (r = -1)
  | Ret.pointer p => decide (p = 0)

/-- The set-side and allocate operations of the file, each with its arguments
other than the topology and the requested mask. -/
inductive SetOp where
  | set_cpubind (flags : Int)
  | set_proc_cpubind (pid : Nat) (flags : Int)
  | set_thread_cpubind (tid : Nat) (flags : Int)
  | set_membind_nodeset (policy flags : Int)
  | set_proc_membind_nodeset (pid : Nat) (policy flags : Int)
  | set_area_membind_nodeset (addr : Ptr) (len : Nat) (policy flags : Int)
  | alloc_membind_nodeset (len : Nat) (policy flags : Int)
  | set_membind (policy flags : Int)
  | set_proc_membind (pid : Nat) (policy flags : Int)
  | set_area_membind (addr : Ptr) (len : Nat) (policy flags : Int)
  | alloc_membind (len : Nat) (policy flags : Int)
  deriving DecidableEq

/-- The call of the operation on a requested mask. -/
def SetOp.run (topology : Topology) (libc : Libc) (op : SetOp) (mask : Bitmap) (s : State) :
    Ret × State :=
  match op with
  | SetOp.set_cpubind flags =>
    let r := hwloc_set_cpubind topology mask flags s
    (Ret.status r.1, r.2)
  | SetOp.set_proc_cpubind pid flags =>
    let r := hwloc_set_proc_cpubind topology pid mask flags s
    (Ret.status r.1, r.2)
  | SetOp.set_thread_cpubind tid flags =>
    let r := hwloc_set_thread_cpubind topology tid mask flags s
    (Ret.status r.1, r.2)
  | SetOp.set_membind_nodeset policy flags =>
    let r := hwloc_set_membind_nodeset topology mask policy flags s
    (Ret.status r.1, r.2)
  | SetOp.set_proc_membind_nodeset pid policy flags =>
    let r := hwloc_set_proc_membind_nodeset topology pid mask policy flags s
    (Ret.status r.1, r.2)
  | SetOp.set_area_membind_nodeset addr len policy flags =>
    let r := hwloc_set_area_membind_nodeset topology addr len mask policy flags s
    (Ret.status r.1, r.2)
  | SetOp.alloc_membind_nodeset len policy flags =>
    let r := hwloc_alloc_membind_nodeset topology libc len mask policy flags s
    (Ret.pointer r.1, r.2)
  | SetOp.set_membind policy flags =>
    let r := hwloc_set_membind topology mask policy flags s
    (Ret.status r.1, r.2)
  | SetOp.set_proc_membind pid policy flags =>
    let r := hwloc_set_proc_membind topology pid mask policy flags s
    (Ret.status r.1, r.2)
  | SetOp.set_area_membind addr len policy flags =>
    let r := hwloc_set_area_membind topology addr len mask policy flags s
    (Ret.status r.1, r.2)
  | SetOp.alloc_membind len policy flags =>
    let r := hwloc_alloc_membind topology libc len mask policy flags s
    (Ret.pointer r.1, r.2)

/-- The normalisation a memory operation taking a cpuset goes through:
`hwloc_fix_membind_cpuset` into a fresh node set, then the `hwloc_fix_membind`
of the node-set function it calls. -/
def fix_membind_of_cpuset (topology : Topology) (set : Bitmap) (s : State) :
    Option Bitmap × State :=
  match hwloc_fix_membind_cpuset topology ∅ set s with
  | ((r, nodeset), s) =>
    if r ≠ 0 then (none, s) else hwloc_fix_membind topology nodeset s

/-- The normalisation of the requested mask that the operation performs. -/
def SetOp.normalize (topology : Topology) (op : SetOp) (mask : Bitmap) (s : State) :
    Option Bitmap × State :=
  match op with
  | SetOp.set_cpubind _ => hwloc_fix_cpubind topology mask s
  | SetOp.set_proc_cpubind _ _ => hwloc_fix_cpubind topology mask s
  | SetOp.set_thread_cpubind _ _ => hwloc_fix_cpubind topology mask s
  | SetOp.set_membind_nodeset _ _ => hwloc_fix_membind topology mask s
  | SetOp.set_proc_membind_nodeset _ _ _ => hwloc_fix_membind topology mask s
  | SetOp.set_area_membind_nodeset _ _ _ _ => hwloc_fix_membind topology mask s
  | SetOp.alloc_membind_nodeset _ _ _ => hwloc_fix_membind topology mask s
  | SetOp.set_membind _ _ => fix_membind_of_cpuset topology mask s
  | SetOp.set_proc_membind _ _ _ => fix_membind_of_cpuset topology mask s
  | SetOp.set_area_membind _ _ _ _ => fix_membind_of_cpuset topology mask s
  | SetOp.alloc_membind _ _ _ => fix_membind_of_cpuset topology mask s

/-- The cpuset a cpu-binding set hook receives. -/
def Call.passed_cpuset : Call → Option Bitmap
  | Call.set_thisproc_cpubind set _ => some set
  | Call.set_thisthread_cpubind set _ => some set
  | Call.set_proc_cpubind _ set _ => some set
  | Call.set_thread_cpubind _ set _ => some set
  | _ => none

/-- The node set a memory-binding set hook or the allocating hook receives. -/
def Call.passed_nodeset : Call → Option Bitmap
  | Call.set_thisproc_membind nodeset _ _ => some nodeset
  | Call.set_thisthread_membind nodeset _ _ => some nodeset
  | Call.set_proc_membind _ nodeset _ _ => some nodeset
  | Call.set_area_membind _ _ nodeset _ _ => some nodeset
  | Call.alloc_membind _ nodeset _ _ => some nodeset
  | _ => none

/-- The operations that bind memory; the others bind processing units. -/
def SetOp.binds_memory : SetOp → Bool
  | SetOp.set_cpubind _ => false
  | SetOp.set_proc_cpubind _ _ => false
  | SetOp.set_thread_cpubind _ _ => false
  | _ => true

/-- The operations whose requested mask is a node set; the others take a
cpuset. -/
def SetOp.takes_nodeset : SetOp → Bool
  | SetOp.set_membind_nodeset _ _ => true
  | SetOp.set_proc_membind_nodeset _ _ _ => true
  | SetOp.set_area_membind_nodeset _ _ _ _ => true
  | SetOp.alloc_membind_nodeset _ _ _ => true
  | _ => false

/-- The call passes no cpuset other than `cpu` and no node set other than
`node`. -/
def Call.carries (cpu node : Option Bitmap) (c : Call) : Prop :=
  (∀ m, c.passed_cpuset = some m → cpu = some m) ∧
  (∀ m, c.passed_nodeset = some m → node = some m)

/-- From `s` to `s'` the record of calls only grew, and by calls that pass no
other mask than `cpu` and `node`. -/
def State.grows_carrying (cpu node : Option Bitmap) (s s' : State) : Prop :=
  ∃ new, s'.calls = s.calls ++ new ∧ ∀ c ∈ new, c.carries cpu node

/-- A topology with the given masks, the identity for both conversions, and no
backend hook. -/
def Topology.bare (usable : Option Bitmap) (complete nodes : Bitmap)
    (complete_nodes : Option Bitmap) : Topology where
  topology_cpuset := usable
  complete_cpuset := complete
  nodeset := nodes
  complete_nodeset := complete_nodes
  cpuset_to_nodeset := fun set => set
  cpuset_from_nodeset := fun nodeset => nodeset
  set_thisproc_cpubind := none
  get_thisproc_cpubind := none
  set_thisthread_cpubind := none
  get_thisthread_cpubind := none
  set_proc_cpubind := none
  get_proc_cpubind := none
  set_thread_cpubind := none
  get_thread_cpubind := none
  set_thisproc_membind := none
  get_thisproc_membind := none
  set_thisthread_membind := none
  get_thisthread_membind := none
  set_proc_membind := none
  get_proc_membind := none
  set_area_membind := none
  get_area_membind := none
  alloc_membind := none
  free_membind := none

/-- A machine with usable cpuset `{0}` inside the complete cpuset `{0, 1}`, root
node set `{0}` inside the complete node set `{0, 1}`, whose four hooks for the
calling process and the calling thread exist for cpu binding and for memory
binding, each succeeding without touching `errno`. -/
def Topology.sample : Topology :=
  { Topology.bare (some {0}) {0, 1} {0} (some {0, 1}) with
    set_thisproc_cpubind := some (fun _ _ e => (0, e))
    get_thisproc_cpubind := some (fun _ _ e => ((0, {0}), e))
    set_thisthread_cpubind := some (fun _ _ e => (0, e))
    get_thisthread_cpubind := some (fun _ _ e => ((0, {0}), e))
    set_thisproc_membind := some (fun _ _ _ e => (0, e))
    get_thisproc_membind := some (fun _ _ _ e => ((0, {0}, 1), e))
    set_thisthread_membind := some (fun _ _ _ e => (0, e))
    get_thisthread_membind := some (fun _ _ _ e => ((0, {0}, 1), e)) }

/-- The same hooks on a federation of machines: no usable cpuset. -/
def Topology.federation : Topology :=
  { Topology.sample with topology_cpuset := none }

/-- The sample machine when only the hooks for the calling thread exist. -/
def Topology.thread_only : Topology :=
  { Topology.sample with
    set_thisproc_cpubind := none
    get_thisproc_cpubind := none
    set_thisproc_membind := none
    get_thisproc_membind := none }

/-- A state with nothing recorded. -/
def State.initial : State where
  errno := 0
  calls := []
  live_blocks := []
  live_bitmaps := 0

/-- A C library whose allocator always fails. -/
def Libc.failing : Libc where
  config := AllocConfig.malloc
  getpagesize := 4096
  posix_memalign := fun _ _ => (12, 0)
  memalign := fun _ _ _ => (0, 12)
  malloc := fun _ _ => (0, 12)
  free := fun _ e => e

/-- The two scopes of the hooks that act on the caller. -/
inductive Scope where
  | process
  | thread
  deriving DecidableEq

/-- The scope of a hook that acts on the calling process or the calling thread. -/
def Call.scope : Call → Option Scope
  | Call.set_thisproc_cpubind _ _ => some Scope.process
  | Call.get_thisproc_cpubind _ _ => some Scope.process
  | Call.set_thisproc_membind _ _ _ => some Scope.process
  | Call.get_thisproc_membind _ _ _ => some Scope.process
  | Call.set_thisthread_cpubind _ _ => some Scope.thread
  | Call.get_thisthread_cpubind _ _ => some Scope.thread
  | Call.set_thisthread_membind _ _ _ => some Scope.thread
  | Call.get_thisthread_membind _ _ _ => some Scope.thread
  | _ => none

/-- The calls of get hooks. -/
def Call.is_get : Call → Bool
  | Call.get_thisproc_cpubind _ _ => true
  | Call.get_thisthread_cpubind _ _ => true
  | Call.get_proc_cpubind _ _ _ => true
  | Call.get_thread_cpubind _ _ _ => true
  | Call.get_thisproc_membind _ _ _ => true
  | Call.get_thisthread_membind _ _ _ => true
  | Call.get_proc_membind _ _ _ _ => true
  | Call.get_area_membind _ _ _ _ _ => true
  | _ => false

/-- The calls recorded in `s'` after those of `s`. -/
def State.new_calls (s s' : State) : List Call :=
  s'.calls.drop s.calls.length

/-- The get operations of the file, each with its arguments other than the
topology and the caller's bitmap; `policy` is the content of `*policy` at the
call. -/
inductive GetOp where
  | get_cpubind (flags : Int)
  | get_proc_cpubind (pid : Nat) (flags : Int)
  | get_thread_cpubind (tid : Nat) (flags : Int)
  | get_membind_nodeset (policy flags : Int)
  | get_membind (policy flags : Int)
  | get_proc_membind_nodeset (pid : Nat) (policy flags : Int)
  | get_proc_membind (pid : Nat) (policy flags : Int)
  | get_area_membind_nodeset (addr : Ptr) (len : Nat) (policy flags : Int)
  | get_area_membind (addr : Ptr) (len : Nat) (policy flags : Int)
  deriving DecidableEq

/-- The call of the get operation on the caller's bitmap `buf`: its return code,
the content of the bitmap after the call, the content of `*policy` after the
call for the memory operations, and the state after the call. -/
def GetOp.run (topology : Topology) (op : GetOp) (buf : Bitmap) (s : State) :
    (Int × Bitmap × Option Int) × State :=
  match op with
  | GetOp.get_cpubind flags =>
    let r := hwloc_get_cpubind topology buf flags s
    ((r.1.1, r.1.2, none), r.2)
  | GetOp.get_proc_cpubind pid flags =>
    let r := hwloc_get_proc_cpubind topology pid buf flags s
    ((r.1.1, r.1.2, none), r.2)
  | GetOp.get_thread_cpubind tid flags =>
    let r := hwloc_get_thread_cpubind topology tid buf flags s
    ((r.1.1, r.1.2, none), r.2)
  | GetOp.get_membind_nodeset policy flags =>
    let r := hwloc_get_membind_nodeset topology buf policy flags s
    ((r.1.1, r.1.2.1, some r.1.2.2), r.2)
  | GetOp.get_membind policy flags =>
    let r := hwloc_get_membind topology buf policy flags s
    ((r.1.1, r.1.2.1, some r.1.2.2), r.2)
  | GetOp.get_proc_membind_nodeset pid policy flags =>
    let r := hwloc_get_proc_membind_nodeset topology pid buf policy flags s
    ((r.1.1, r.1.2.1, some r.1.2.2), r.2)
  | GetOp.get_proc_membind pid policy flags =>
    let r := hwloc_get_proc_membind topology pid buf policy flags s
    ((r.1.1, r.1.2.1, some r.1.2.2), r.2)
  | GetOp.get_area_membind_nodeset addr len policy flags =>
    let r := hwloc_get_area_membind_nodeset topology addr len buf policy flags s
    ((r.1.1, r.1.2.1, some r.1.2.2), r.2)
  | GetOp.get_area_membind addr len policy flags =>
    let r := hwloc_get_area_membind topology addr len buf policy flags s
    ((r.1.1, r.1.2.1, some r.1.2.2), r.2)

/-- A C library whose `malloc` always returns the block at `4096` and leaves
`errno` alone, and whose `free` overwrites `errno` with `9`. -/
def Libc.working : Libc where
  config := AllocConfig.malloc
  getpagesize := 4096
  posix_memalign := fun _ _ => (0, 4096)
  memalign := fun _ _ e => (4096, e)
  malloc := fun _ e => (4096, e)
  free := fun _ _ => 9

/-- The sample machine with a hook binding an existing area, which succeeds, as
its only memory-area capability. -/
def Topology.area_only : Topology :=
  { Topology.sample with set_area_membind := some (fun _ _ _ _ _ e => (0, e)) }

/-- The sample machine with a hook binding an existing area that always fails,
returning `-1` with `errno` set to `5`. -/
def Topology.area_failing : Topology :=
  { Topology.sample with set_area_membind := some (fun _ _ _ _ _ _ => (-1, 5)) }

/-- The machine of `Topology.area_only` with a dedicated release hook and no
allocating hook. -/
def Topology.release_only : Topology :=
  { Topology.area_only with free_membind := some (fun _ _ e => (0, e)) }

/-- The sample machine with an allocating hook, which returns the block at
`8192`, and a dedicated release hook. -/
def Topology.backend_pair : Topology :=
  { Topology.sample with
    alloc_membind := some (fun _ _ _ _ e => (8192, e))
    free_membind := some (fun _ _ e => (0, e)) }

/-! ## Normalisation -/

/-- C1: `hwloc_fix_cpubind` fails with `EXDEV` when the usable cpuset is
undefined, whatever the requested mask; otherwise with `EINVAL` when the
requested mask is not within the complete cpuset; otherwise it returns the
complete cpuset when the usable cpuset is within the requested mask, and the
requested mask itself otherwise. A successful result is the requested mask or
the complete cpuset, and success changes nothing in the state. -/
theorem hwloc_fix_cpubind_contract (T : Topology) (R : Bitmap) (s : State) :
    (T.topology_cpuset = none →
      hwloc_fix_cpubind T R s = (none, { s with errno := EXDEV })) ∧
    (∀ U, T.topology_cpuset = some U → ¬ R ⊆ T.complete_cpuset →
      hwloc_fix_cpubind T R s = (none, { s with errno := EINVAL })) ∧
    (∀ U, T.topology_cpuset = some U → R ⊆ T.complete_cpuset → U ⊆ R →
      hwloc_fix_cpubind T R s = (some T.complete_cpuset, s)) ∧
    (∀ U, T.topology_cpuset = some U → R ⊆ T.complete_cpuset → ¬ U ⊆ R →
      hwloc_fix_cpubind T R s = (some R, s)) ∧
    (∀ m s', hwloc_fix_cpubind T R s = (some m, s') →
      (m = R ∨ m = T.complete_cpuset) ∧ s' = s) := by
  refine ⟨?_, ?_, ?_, ?_, ?_⟩
  · intro h
    simp [hwloc_fix_cpubind, h, set_errno]
  · intro U h hR
    simp [hwloc_fix_cpubind, h, set_errno, hwloc_bitmap_isincluded, hR]
  · intro U h hR hU
    simp [hwloc_fix_cpubind, h, hwloc_bitmap_isincluded, hR, hU]
  · intro U h hR hU
    simp [hwloc_fix_cpubind, h, hwloc_bitmap_isincluded, hR, hU]
  · intro m s' h
    unfold hwloc_fix_cpubind at h
    split at h
    · simp at h
    · split at h
      · simp at h
      · split at h <;> simp at h <;> simp [h]

/-- C1 at concrete inputs: the four outcomes, on the federation and on the
sample machine (usable cpuset `{0}`, complete cpuset `{0, 1}`). -/
theorem hwloc_fix_cpubind_contract_witness :
    hwloc_fix_cpubind Topology.federation {0} State.initial
      = (none, { State.initial with errno := EXDEV }) ∧
    hwloc_fix_cpubind Topology.sample {0, 5} State.initial
      = (none, { State.initial with errno := EINVAL }) ∧
    hwloc_fix_cpubind Topology.sample {0} State.initial
      = (some Topology.sample.complete_cpuset, State.initial) ∧
    hwloc_fix_cpubind Topology.sample {1} State.initial = (some {1}, State.initial) :=
  ⟨(hwloc_fix_cpubind_contract Topology.federation {0} State.initial).1 rfl,
    (hwloc_fix_cpubind_contract Topology.sample {0, 5} State.initial).2.1 {0} rfl
      (by decide),
    (hwloc_fix_cpubind_contract Topology.sample {0} State.initial).2.2.1 {0} rfl
      (by decide) (by decide),
    (hwloc_fix_cpubind_contract Topology.sample {1} State.initial).2.2.2.1 {0} rfl
      (by decide) (by decide)⟩

/-- C2: `hwloc_fix_membind` checks in a fixed order: `EXDEV` when the usable
cpuset is undefined; otherwise `ENODEV` when the root has no complete node set,
whatever the requested node set; otherwise `EINVAL` when the requested node set
is not within the complete node set; otherwise the complete node set when the
root node set is within the requested one, and the requested node set
otherwise. `EINVAL` is reported only when a complete node set exists. -/
theorem hwloc_fix_membind_contract (T : Topology) (N : Bitmap) (s : State) :
    (T.topology_cpuset = none →
      hwloc_fix_membind T N s = (none, { s with errno := EXDEV })) ∧
    (∀ U, T.topology_cpuset = some U → T.complete_nodeset = none →
      hwloc_fix_membind T N s = (none, { s with errno := ENODEV })) ∧
    (∀ U C, T.topology_cpuset = some U → T.complete_nodeset = some C → ¬ N ⊆ C →
      hwloc_fix_membind T N s = (none, { s with errno := EINVAL })) ∧
    (∀ U C, T.topology_cpuset = some U → T.complete_nodeset = some C → N ⊆ C →
      T.nodeset ⊆ N → hwloc_fix_membind T N s = (some C, s)) ∧
    (∀ U C, T.topology_cpuset = some U → T.complete_nodeset = some C → N ⊆ C →
      ¬ T.nodeset ⊆ N → hwloc_fix_membind T N s = (some N, s)) ∧
    (∀ s', hwloc_fix_membind T N s = (none, s') → s'.errno = EINVAL →
      ∃ U C, T.topology_cpuset = some U ∧ T.complete_nodeset = some C ∧ ¬ N ⊆ C) := by
  refine ⟨?_, ?_, ?_, ?_, ?_, ?_⟩
  · intro h
    simp [hwloc_fix_membind, h, set_errno]
  · intro U h hC
    simp [hwloc_fix_membind, h, hC, set_errno]
  · intro U C h hC hN
    simp [hwloc_fix_membind, h, hC, set_errno, hwloc_bitmap_isincluded, hN]
  · intro U C h hC hN hT
    simp [hwloc_fix_membind, h, hC, hwloc_bitmap_isincluded, hN, hT]
  · intro U C h hC hN hT
    simp [hwloc_fix_membind, h, hC, hwloc_bitmap_isincluded, hN, hT]
  · intro s' h he
    cases hU : T.topology_cpuset with
    | none =>
      simp [hwloc_fix_membind, hU, set_errno] at h
      rw [← h] at he
      simp [EXDEV, EINVAL] at he
    | some U =>
      cases hC : T.complete_nodeset with
      | none =>
        simp [hwloc_fix_membind, hU, hC, set_errno] at h
        rw [← h] at he
        simp [ENODEV, EINVAL] at he
      | some C =>
        refine ⟨U, C, rfl, rfl, ?_⟩
        intro hN
        simp [hwloc_fix_membind, hU, hC, hwloc_bitmap_isincluded, hN] at h
        split at h <;> simp at h

/-- C2 at concrete inputs: on a machine without complete node set the invalid
node set `{0, 5}` is refused with `ENODEV`; on the sample machine (root node set
`{0}`, complete node set `{0, 1}`) it is refused with `EINVAL`, `{0}` becomes
the complete node set and `{1}` is kept. -/
theorem hwloc_fix_membind_contract_witness :
    hwloc_fix_membind (Topology.bare (some {0}) {0, 1} {0} none) {0, 5} State.initial
      = (none, { State.initial with errno := ENODEV }) ∧
    hwloc_fix_membind Topology.sample {0, 5} State.initial
      = (none, { State.initial with errno := EINVAL }) ∧
    hwloc_fix_membind Topology.sample {0} State.initial = (some {0, 1}, State.initial) ∧
    hwloc_fix_membind Topology.sample {1} State.initial = (some {1}, State.initial) :=
  ⟨(hwloc_fix_membind_contract (Topology.bare (some {0}) {0, 1} {0} none) {0, 5}
      State.initial).2.1 {0} rfl rfl,
    (hwloc_fix_membind_contract Topology.sample {0, 5} State.initial).2.2.1 {0} {0, 1}
      rfl rfl (by decide),
    (hwloc_fix_membind_contract Topology.sample {0} State.initial).2.2.2.1 {0} {0, 1}
      rfl rfl (by decide) (by decide),
    (hwloc_fix_membind_contract Topology.sample {1} State.initial).2.2.2.2.1 {0} {0, 1}
      rfl rfl (by decide) (by decide)⟩

/-! ### The normalisations, uniformly in the state -/

theorem fix_cpubind_cases (T : Topology) (R : Bitmap) :
    (∃ m, m ⊆ T.complete_cpuset ∧ T.topology_cpuset ≠ none ∧
      ∀ s, hwloc_fix_cpubind T R s = (some m, s)) ∨
    (∃ e, (e = EXDEV ∨ e = EINVAL) ∧
      ∀ s, hwloc_fix_cpubind T R s = (none, set_errno e s)) := by
  cases hU : T.topology_cpuset with
  | none =>
    exact Or.inr ⟨EXDEV, Or.inl rfl, fun s => by simp [hwloc_fix_cpubind, hU]⟩
  | some U =>
    by_cases hR : R ⊆ T.complete_cpuset
    · left
      by_cases hUR : U ⊆ R
      · exact ⟨T.complete_cpuset, subset_rfl, by simp, fun s => by
          simp [hwloc_fix_cpubind, hU, hwloc_bitmap_isincluded, hR, hUR]⟩
      · exact ⟨R, hR, by simp, fun s => by
          simp [hwloc_fix_cpubind, hU, hwloc_bitmap_isincluded, hR, hUR]⟩
    · exact Or.inr ⟨EINVAL, Or.inr rfl, fun s => by
        simp [hwloc_fix_cpubind, hU, hwloc_bitmap_isincluded, hR]⟩

theorem fix_membind_cases (T : Topology) (N : Bitmap) :
    (∃ m C, T.complete_nodeset = some C ∧ m ⊆ C ∧ T.topology_cpuset ≠ none ∧
      ∀ s, hwloc_fix_membind T N s = (some m, s)) ∨
    (∃ e, (e = EXDEV ∨ e = ENODEV ∨ e = EINVAL) ∧
      ∀ s, hwloc_fix_membind T N s = (none, set_errno e s)) := by
  cases hU : T.topology_cpuset with
  | none =>
    exact Or.inr ⟨EXDEV, Or.inl rfl, fun s => by simp [hwloc_fix_membind, hU]⟩
  | some U =>
    cases hC : T.complete_nodeset with
    | none =>
      exact Or.inr ⟨ENODEV, Or.inr (Or.inl rfl), fun s => by
        simp [hwloc_fix_membind, hU, hC]⟩
    | some C =>
      by_cases hN : N ⊆ C
      · left
        by_cases hTN : T.nodeset ⊆ N
        · exact ⟨C, C, rfl, subset_rfl, by simp, fun s => by
            simp [hwloc_fix_membind, hU, hC, hwloc_bitmap_isincluded, hN, hTN]⟩
        · exact ⟨N, C, rfl, hN, by simp, fun s => by
            simp [hwloc_fix_membind, hU, hC, hwloc_bitmap_isincluded, hN, hTN]⟩
      · exact Or.inr ⟨EINVAL, Or.inr (Or.inr rfl), fun s => by
          simp [hwloc_fix_membind, hU, hC, hwloc_bitmap_isincluded, hN]⟩

theorem fix_membind_cpuset_cases (T : Topology) (n : Bitmap) (C : Bitmap) :
    (∃ ns, T.topology_cpuset ≠ none ∧
      ∀ s, hwloc_fix_membind_cpuset T n C s = ((0, ns), s)) ∨
    (∃ e, (e = EXDEV ∨ e = ENODEV ∨ e = EINVAL) ∧
      ∀ s, hwloc_fix_membind_cpuset T n C s = ((-1, n), set_errno e s)) := by
  cases hU : T.topology_cpuset with
  | none =>
    exact Or.inr ⟨EXDEV, Or.inl rfl, fun s => by simp [hwloc_fix_membind_cpuset, hU]⟩
  | some U =>
    cases hC : T.complete_nodeset with
    | none =>
      exact Or.inr ⟨ENODEV, Or.inr (Or.inl rfl), fun s => by
        simp [hwloc_fix_membind_cpuset, hU, hC]⟩
    | some CN =>
      by_cases hN : C ⊆ T.complete_cpuset
      · left
        by_cases hUC : U ⊆ C
        · exact ⟨CN, by simp, fun s => by
            simp [hwloc_fix_membind_cpuset, hU, hC, hwloc_bitmap_isincluded, hN, hUC]⟩
        · exact ⟨T.cpuset_to_nodeset C, by simp, fun s => by
            simp [hwloc_fix_membind_cpuset, hU, hC, hwloc_bitmap_isincluded, hN, hUC]⟩
      · exact Or.inr ⟨EINVAL, Or.inr (Or.inr rfl), fun s => by
          simp [hwloc_fix_membind_cpuset, hU, hC, hwloc_bitmap_isincluded, hN]⟩

theorem allocate_calls (libc : Libc) (len : Nat) (s : State) :
    (hwloc_allocate libc len s).2.calls = s.calls ++ [Call.allocate len] := by
  unfold hwloc_allocate
  cases libc.config <;> simp [allocated, set_errno]

/-! ## The masks that reach a backend -/

theorem fix_membind_value (T : Topology) (N : Bitmap) (s s' : State) :
    (hwloc_fix_membind T N s).1 = (hwloc_fix_membind T N s').1 := by
  rcases fix_membind_cases T N with ⟨m, C, -, -, -, h⟩ | ⟨e, -, h⟩ <;> simp [h]

theorem grows_of_calls_eq (cpu node : Option Bitmap) {s s' : State}
    (h : s'.calls = s.calls) : s.grows_carrying cpu node s' :=
  ⟨[], by simp [h], by simp⟩

theorem grows_trans {cpu node : Option Bitmap} {s s' s'' : State}
    (h : s.grows_carrying cpu node s') (h' : s'.grows_carrying cpu node s'') :
    s.grows_carrying cpu node s'' := by
  obtain ⟨n, hn, hw⟩ := h
  obtain ⟨n', hn', hw'⟩ := h'
  refine ⟨n ++ n', by simp [hn', hn], ?_⟩
  intro c hc
  rcases List.mem_append.mp hc with hc | hc
  · exact hw c hc
  · exact hw' c hc

theorem grows_invoke (cpu node : Option Bitmap) {α : Type} (c : Call) (f : Ext α) (s : State)
    (h : c.carries cpu node) : s.grows_carrying cpu node (invoke c f s).2 :=
  ⟨[c], by simp [invoke], by simpa using h⟩

theorem grows_set_errno (cpu node : Option Bitmap) (e : Int) (s : State) :
    s.grows_carrying cpu node (set_errno e s) :=
  grows_of_calls_eq cpu node (by simp [set_errno])

theorem grows_allocate (cpu node : Option Bitmap) (libc : Libc) (len : Nat) (s : State) :
    s.grows_carrying cpu node (hwloc_allocate libc len s).2 :=
  ⟨[Call.allocate len], allocate_calls libc len s, by
    simp [Call.carries, Call.passed_cpuset, Call.passed_nodeset]⟩

theorem grows_free (cpu node : Option Bitmap) (libc : Libc) (p : Ptr) (s : State) :
    s.grows_carrying cpu node (free libc p s) :=
  ⟨[Call.free p], by simp [free], by
    simp [Call.carries, Call.passed_cpuset, Call.passed_nodeset]⟩

theorem set_cpubind_grows (T : Topology) (R : Bitmap) (flags : Int) (s : State) :
    s.grows_carrying (hwloc_fix_cpubind T R s).1 none (hwloc_set_cpubind T R flags s).2 := by
  rcases fix_cpubind_cases T R with ⟨m, -, -, h⟩ | ⟨e, -, h⟩
  · simp only [hwloc_set_cpubind, h]
    split_ifs <;> (repeat' split) <;>
      first
      | exact grows_set_errno _ _ _ s
      | exact grows_invoke _ _ _ _ s (by
          simp [Call.carries, Call.passed_cpuset, Call.passed_nodeset])
  · simp only [hwloc_set_cpubind, h]
    exact grows_set_errno _ _ e s

theorem set_proc_cpubind_grows (T : Topology) (pid : Nat) (R : Bitmap) (flags : Int)
    (s : State) :
    s.grows_carrying (hwloc_fix_cpubind T R s).1 none
      (hwloc_set_proc_cpubind T pid R flags s).2 := by
  rcases fix_cpubind_cases T R with ⟨m, -, -, h⟩ | ⟨e, -, h⟩
  · simp only [hwloc_set_proc_cpubind, h]
    split
    · exact grows_invoke _ _ _ _ s (by
        simp [Call.carries, Call.passed_cpuset, Call.passed_nodeset])
    · exact grows_set_errno _ _ _ s
  · simp only [hwloc_set_proc_cpubind, h]
    exact grows_set_errno _ _ e s

theorem set_thread_cpubind_grows (T : Topology) (tid : Nat) (R : Bitmap) (flags : Int)
    (s : State) :
    s.grows_carrying (hwloc_fix_cpubind T R s).1 none
      (hwloc_set_thread_cpubind T tid R flags s).2 := by
  rcases fix_cpubind_cases T R with ⟨m, -, -, h⟩ | ⟨e, -, h⟩
  · simp only [hwloc_set_thread_cpubind, h]
    split
    · exact grows_invoke _ _ _ _ s (by
        simp [Call.carries, Call.passed_cpuset, Call.passed_nodeset])
    · exact grows_set_errno _ _ _ s
  · simp only [hwloc_set_thread_cpubind, h]
    exact grows_set_errno _ _ e s

theorem set_membind_nodeset_grows (T : Topology) (N : Bitmap) (policy flags : Int)
    (s : State) :
    s.grows_carrying none (hwloc_fix_membind T N s).1
      (hwloc_set_membind_nodeset T N policy flags s).2 := by
  rcases fix_membind_cases T N with ⟨m, C, -, -, -, h⟩ | ⟨e, -, h⟩
  · simp only [hwloc_set_membind_nodeset, h]
    split_ifs <;> (repeat' split) <;>
      first
      | exact grows_set_errno _ _ _ s
      | exact grows_invoke _ _ _ _ s (by
          simp [Call.carries, Call.passed_cpuset, Call.passed_nodeset])
  · simp only [hwloc_set_membind_nodeset, h]
    exact grows_set_errno _ _ e s

theorem set_proc_membind_nodeset_grows (T : Topology) (pid : Nat) (N : Bitmap)
    (policy flags : Int) (s : State) :
    s.grows_carrying none (hwloc_fix_membind T N s).1
      (hwloc_set_proc_membind_nodeset T pid N policy flags s).2 := by
  rcases fix_membind_cases T N with ⟨m, C, -, -, -, h⟩ | ⟨e, -, h⟩
  · simp only [hwloc_set_proc_membind_nodeset, h]
    split
    · exact grows_invoke _ _ _ _ s (by
        simp [Call.carries, Call.passed_cpuset, Call.passed_nodeset])
    · exact grows_set_errno _ _ _ s
  · simp only [hwloc_set_proc_membind_nodeset, h]
    exact grows_set_errno _ _ e s

theorem set_area_membind_nodeset_grows (T : Topology) (addr : Ptr) (len : Nat) (N : Bitmap)
    (policy flags : Int) (s : State) :
    s.grows_carrying none (hwloc_fix_membind T N s).1
      (hwloc_set_area_membind_nodeset T addr len N policy flags s).2 := by
  rcases fix_membind_cases T N with ⟨m, C, -, -, -, h⟩ | ⟨e, -, h⟩
  · simp only [hwloc_set_area_membind_nodeset, h]
    split
    · exact grows_invoke _ _ _ _ s (by
        simp [Call.carries, Call.passed_cpuset, Call.passed_nodeset])
    · exact grows_set_errno _ _ _ s
  · simp only [hwloc_set_area_membind_nodeset, h]
    exact grows_set_errno _ _ e s

theorem alloc_membind_nodeset_grows (T : Topology) (libc : Libc) (len : Nat) (N : Bitmap)
    (policy flags : Int) (s : State) :
    s.grows_carrying none (hwloc_fix_membind T N s).1
      (hwloc_alloc_membind_nodeset T libc len N policy flags s).2 := by
  rcases fix_membind_cases T N with ⟨m, C, -, -, -, h⟩ | ⟨e, -, h⟩
  · have hw : ∀ p, (Call.set_area_membind p len m policy flags).carries none (some m) := by
      intro p
      simp [Call.carries, Call.passed_cpuset, Call.passed_nodeset]
    simp only [hwloc_alloc_membind_nodeset, h]
    split_ifs <;> (repeat' split) <;>
      first
      | exact grows_set_errno _ _ _ s
      | exact grows_allocate _ _ libc len s
      | exact grows_invoke _ _ _ _ s (by
          simp [Call.carries, Call.passed_cpuset, Call.passed_nodeset])
      | exact grows_trans (grows_allocate _ _ libc len s) (grows_invoke _ _ _ _ _ (hw _))
      | exact grows_trans (grows_allocate _ _ libc len s)
          (grows_trans (grows_invoke _ _ _ _ _ (hw _))
            (grows_trans (grows_free _ _ libc _ _) (grows_set_errno _ _ _ _)))
  · simp only [hwloc_alloc_membind_nodeset, h]
    exact grows_set_errno _ _ e s

theorem set_membind_grows (T : Topology) (C : Bitmap)
    (policy flags : Int) (s : State) :
    s.grows_carrying none (fix_membind_of_cpuset T C s).1
      (hwloc_set_membind T C policy flags s).2 := by
  rcases fix_membind_cpuset_cases T ∅ C with ⟨ns, -, h⟩ | ⟨e, -, h⟩
  · simp only [hwloc_set_membind, fix_membind_of_cpuset, hwloc_bitmap_alloc, h]
    simp only [ne_eq, not_true_eq_false, if_false]
    rw [fix_membind_value T ns s { s with live_bitmaps := s.live_bitmaps + 1 }]
    exact grows_trans (grows_of_calls_eq _ _ rfl)
      (grows_trans (set_membind_nodeset_grows T ns policy flags _)
        (grows_of_calls_eq _ _ rfl))
  · simp only [hwloc_set_membind, hwloc_bitmap_alloc, h]
    exact grows_of_calls_eq _ _ (by simp [hwloc_bitmap_free, set_errno])

theorem set_proc_membind_grows (T : Topology) (pid : Nat) (C : Bitmap)
    (policy flags : Int) (s : State) :
    s.grows_carrying none (fix_membind_of_cpuset T C s).1
      (hwloc_set_proc_membind T pid C policy flags s).2 := by
  rcases fix_membind_cpuset_cases T ∅ C with ⟨ns, -, h⟩ | ⟨e, -, h⟩
  · simp only [hwloc_set_proc_membind, fix_membind_of_cpuset, hwloc_bitmap_alloc, h]
    simp only [ne_eq, not_true_eq_false, if_false]
    rw [fix_membind_value T ns s { s with live_bitmaps := s.live_bitmaps + 1 }]
    exact grows_trans (grows_of_calls_eq _ _ rfl)
      (grows_trans (set_proc_membind_nodeset_grows T pid ns policy flags _)
        (grows_of_calls_eq _ _ rfl))
  · simp only [hwloc_set_proc_membind, hwloc_bitmap_alloc, h]
    exact grows_of_calls_eq _ _ (by simp [hwloc_bitmap_free, set_errno])

theorem set_area_membind_grows (T : Topology) (addr : Ptr) (len : Nat) (C : Bitmap)
    (policy flags : Int) (s : State) :
    s.grows_carrying none (fix_membind_of_cpuset T C s).1
      (hwloc_set_area_membind T addr len C policy flags s).2 := by
  rcases fix_membind_cpuset_cases T ∅ C with ⟨ns, -, h⟩ | ⟨e, -, h⟩
  · simp only [hwloc_set_area_membind, fix_membind_of_cpuset, hwloc_bitmap_alloc, h]
    simp only [ne_eq, not_true_eq_false, if_false]
    rw [fix_membind_value T ns s { s with live_bitmaps := s.live_bitmaps + 1 }]
    exact grows_trans (grows_of_calls_eq _ _ rfl)
      (grows_trans (set_area_membind_nodeset_grows T addr len ns policy flags _)
        (grows_of_calls_eq _ _ rfl))
  · simp only [hwloc_set_area_membind, hwloc_bitmap_alloc, h]
    exact grows_of_calls_eq _ _ (by simp [hwloc_bitmap_free, set_errno])

theorem alloc_membind_grows (T : Topology) (libc : Libc) (len : Nat) (C : Bitmap)
    (policy flags : Int) (s : State) :
    s.grows_carrying none (fix_membind_of_cpuset T C s).1
      (hwloc_alloc_membind T libc len C policy flags s).2 := by
  rcases fix_membind_cpuset_cases T ∅ C with ⟨ns, -, h⟩ | ⟨e, -, h⟩
  · simp only [hwloc_alloc_membind, fix_membind_of_cpuset, hwloc_bitmap_alloc, h]
    simp only [ne_eq, not_true_eq_false, if_false]
    rw [fix_membind_value T ns s { s with live_bitmaps := s.live_bitmaps + 1 }]
    exact grows_trans (grows_of_calls_eq _ _ rfl)
      (grows_trans (alloc_membind_nodeset_grows T libc len ns policy flags _)
        (grows_of_calls_eq _ _ rfl))
  · simp only [hwloc_alloc_membind, hwloc_bitmap_alloc, h]
    exact grows_of_calls_eq _ _ (by simp [hwloc_bitmap_free, set_errno])

theorem run_grows (T : Topology) (libc : Libc) (op : SetOp) (mask : Bitmap) (s : State) :
    s.grows_carrying
      (if op.binds_memory then none else (op.normalize T mask s).1)
      (if op.binds_memory then (op.normalize T mask s).1 else none)
      (op.run T libc mask s).2 := by
  cases op with
  | set_cpubind flags => exact set_cpubind_grows T mask flags s
  | set_proc_cpubind pid flags => exact set_proc_cpubind_grows T pid mask flags s
  | set_thread_cpubind tid flags => exact set_thread_cpubind_grows T tid mask flags s
  | set_membind_nodeset policy flags =>
    exact set_membind_nodeset_grows T mask policy flags s
  | set_proc_membind_nodeset pid policy flags =>
    exact set_proc_membind_nodeset_grows T pid mask policy flags s
  | set_area_membind_nodeset addr len policy flags =>
    exact set_area_membind_nodeset_grows T addr len mask policy flags s
  | alloc_membind_nodeset len policy flags =>
    exact alloc_membind_nodeset_grows T libc len mask policy flags s
  | set_membind policy flags => exact set_membind_grows T mask policy flags s
  | set_proc_membind pid policy flags =>
    exact set_proc_membind_grows T pid mask policy flags s
  | set_area_membind addr len policy flags =>
    exact set_area_membind_grows T addr len mask policy flags s
  | alloc_membind len policy flags => exact alloc_membind_grows T libc len mask policy flags s

theorem normalize_within (T : Topology) (op : SetOp) (mask : Bitmap) (s : State) (m : Bitmap)
    (h : (op.normalize T mask s).1 = some m) :
    if op.binds_memory then ∃ C, T.complete_nodeset = some C ∧ m ⊆ C
    else m ⊆ T.complete_cpuset := by
  cases op <;> simp only [SetOp.normalize] at h <;> simp only [SetOp.binds_memory]
  case set_cpubind | set_proc_cpubind | set_thread_cpubind =>
    rcases fix_cpubind_cases T mask with ⟨m', hm, -, hf⟩ | ⟨e, -, hf⟩
    · rw [hf] at h
      simp only [Option.some.injEq] at h
      subst h
      simpa using hm
    · rw [hf] at h
      simp at h
  case set_membind_nodeset | set_proc_membind_nodeset | set_area_membind_nodeset
      | alloc_membind_nodeset =>
    rcases fix_membind_cases T mask with ⟨m', C, hC, hm, -, hf⟩ | ⟨e, -, hf⟩
    · rw [hf] at h
      simp only [Option.some.injEq] at h
      subst h
      simpa [hC] using hm
    · rw [hf] at h
      simp at h
  case set_membind | set_proc_membind | set_area_membind | alloc_membind =>
    simp only [fix_membind_of_cpuset] at h
    rcases fix_membind_cpuset_cases T ∅ mask with ⟨ns, -, hc⟩ | ⟨e, -, hc⟩
    · rw [hc] at h
      simp only [ne_eq, not_true_eq_false, if_false] at h
      rcases fix_membind_cases T ns with ⟨m', C, hC, hm, -, hf⟩ | ⟨e, -, hf⟩
      · rw [hf] at h
        simp only [Option.some.injEq] at h
        subst h
        simpa [hC] using hm
      · rw [hf] at h
        simp at h
    · rw [hc] at h
      simp at h

/-- C3: whatever the topology, the capability table, the flags and the
requested mask, every call a set-side or allocate operation makes to a backend
hook carries a mask within the topology's complete mask of its kind: the
complete cpuset for a cpu-binding hook, the root's complete node set (which then
exists) for a memory-binding hook. -/
theorem subset_invariant (T : Topology) (libc : Libc) (op : SetOp) (mask : Bitmap)
    (s : State) :
    ∃ new, (op.run T libc mask s).2.calls = s.calls ++ new ∧
      ∀ c ∈ new,
        (∀ m, c.passed_cpuset = some m → m ⊆ T.complete_cpuset) ∧
        (∀ m, c.passed_nodeset = some m →
          ∃ complete, T.complete_nodeset = some complete ∧ m ⊆ complete) := by
  obtain ⟨new, hnew, hc⟩ := run_grows T libc op mask s
  refine ⟨new, hnew, fun c hmem => ⟨fun m hm => ?_, fun m hm => ?_⟩⟩
  · have h1 := (hc c hmem).1 m hm
    have h2 := normalize_within T op mask s m
    cases hb : op.binds_memory <;> simp [hb] at h1 h2
    exact h2 h1
  · have h1 := (hc c hmem).2 m hm
    have h2 := normalize_within T op mask s m
    cases hb : op.binds_memory <;> simp [hb] at h1 h2
    exact h2 h1

/-- C3 at a concrete input: on the sample machine `hwloc_set_cpubind` hands the
requested mask `{1}` to the hook of the calling process, and `{1}` lies within
the complete cpuset `{0, 1}`. -/
theorem subset_invariant_witness :
    ((SetOp.set_cpubind 0).run Topology.sample Libc.failing {1} State.initial).2.calls
      = [Call.set_thisproc_cpubind {1} 0] ∧
    ∃ new,
      ((SetOp.set_cpubind 0).run Topology.sample Libc.failing {1} State.initial).2.calls
        = State.initial.calls ++ new ∧
      ∀ c ∈ new,
        (∀ m, c.passed_cpuset = some m → m ⊆ Topology.sample.complete_cpuset) ∧
        (∀ m, c.passed_nodeset = some m →
          ∃ complete, Topology.sample.complete_nodeset = some complete ∧ m ⊆ complete) :=
  ⟨by decide,
    subset_invariant Topology.sample Libc.failing (SetOp.set_cpubind 0) {1} State.initial⟩

/-! ## Failure of the normalisation -/

/-- C4: when the normalisation of the requested mask fails, the set-side or
allocate operation returns its failure value (`-1`, or `NULL`), `errno` is the
one the normalisation set (`EXDEV`, `ENODEV` or `EINVAL`, never `ENOSYS`), and no
call left the file: no backend hook and no generic allocation, whatever the
capability table and the flags. -/
theorem normalization_failure_short_circuits (T : Topology) (libc : Libc) (op : SetOp)
    (mask : Bitmap) (s s1 : State) (h : op.normalize T mask s = (none, s1)) :
    (op.run T libc mask s).1.failed = true ∧
    (op.run T libc mask s).2.errno = s1.errno ∧
    (s1.errno = EXDEV ∨ s1.errno = ENODEV ∨ s1.errno = EINVAL) ∧
    (op.run T libc mask s).2.calls = s.calls ∧
    (op.run T libc mask s).2.live_blocks = s.live_blocks := by
  cases op <;> simp only [SetOp.normalize] at h <;> simp only [SetOp.run]
  case set_cpubind | set_proc_cpubind | set_thread_cpubind =>
    rcases fix_cpubind_cases T mask with ⟨m, -, -, hf⟩ | ⟨e, he, hf⟩
    · rw [hf] at h
      simp at h
    · rw [hf] at h
      simp only [Prod.mk.injEq, true_and] at h
      subst h
      simp only [hwloc_set_cpubind, hwloc_set_proc_cpubind, hwloc_set_thread_cpubind, hf]
      rcases he with rfl | rfl <;> simp [Ret.failed, set_errno]
  case set_membind_nodeset | set_proc_membind_nodeset | set_area_membind_nodeset
      | alloc_membind_nodeset =>
    rcases fix_membind_cases T mask with ⟨m, C, -, -, -, hf⟩ | ⟨e, he, hf⟩
    · rw [hf] at h
      simp at h
    · rw [hf] at h
      simp only [Prod.mk.injEq, true_and] at h
      subst h
      simp only [hwloc_set_membind_nodeset, hwloc_set_proc_membind_nodeset,
        hwloc_set_area_membind_nodeset, hwloc_alloc_membind_nodeset, hf]
      rcases he with rfl | rfl | rfl <;> simp [Ret.failed, set_errno]
  case set_membind | set_proc_membind | set_area_membind | alloc_membind =>
    simp only [fix_membind_of_cpuset] at h
    rcases fix_membind_cpuset_cases T ∅ mask with ⟨ns, -, hc⟩ | ⟨e, he, hc⟩
    · rw [hc] at h
      simp only [ne_eq, not_true_eq_false, if_false] at h
      rcases fix_membind_cases T ns with ⟨m, C, -, -, -, hf⟩ | ⟨e, he, hf⟩
      · rw [hf] at h
        simp at h
      · rw [hf] at h
        simp only [Prod.mk.injEq, true_and] at h
        subst h
        simp only [hwloc_set_membind, hwloc_set_proc_membind, hwloc_set_area_membind,
          hwloc_alloc_membind, hwloc_bitmap_alloc, hc, hwloc_set_membind_nodeset,
          hwloc_set_proc_membind_nodeset, hwloc_set_area_membind_nodeset,
          hwloc_alloc_membind_nodeset, hf]
        rcases he with rfl | rfl | rfl <;> simp [Ret.failed, set_errno, hwloc_bitmap_free]
    · rw [hc] at h
      simp at h
      subst h
      simp only [hwloc_set_membind, hwloc_set_proc_membind, hwloc_set_area_membind,
        hwloc_alloc_membind, hwloc_bitmap_alloc, hc]
      rcases he with rfl | rfl | rfl <;> simp [Ret.failed, set_errno, hwloc_bitmap_free]

/-- C4 at a concrete input: on the sample machine the mask `{0, 5}` is not within
the complete cpuset `{0, 1}`, and `hwloc_set_cpubind` fails with `EINVAL`
without calling the hooks that exist. -/
theorem normalization_failure_short_circuits_witness :
    (SetOp.set_cpubind 0).normalize Topology.sample {0, 5} State.initial
      = (none, set_errno EINVAL State.initial) ∧
    ((SetOp.set_cpubind 0).run Topology.sample Libc.failing {0, 5} State.initial).1.failed
      = true ∧
    ((SetOp.set_cpubind 0).run Topology.sample Libc.failing {0, 5} State.initial).2.errno
      = (set_errno EINVAL State.initial).errno ∧
    ((set_errno EINVAL State.initial).errno = EXDEV ∨
      (set_errno EINVAL State.initial).errno = ENODEV ∨
      (set_errno EINVAL State.initial).errno = EINVAL) ∧
    ((SetOp.set_cpubind 0).run Topology.sample Libc.failing {0, 5} State.initial).2.calls
      = State.initial.calls ∧
    ((SetOp.set_cpubind 0).run Topology.sample Libc.failing {0, 5}
      State.initial).2.live_blocks = State.initial.live_blocks :=
  ⟨by decide,
    normalization_failure_short_circuits Topology.sample Libc.failing (SetOp.set_cpubind 0)
      {0, 5} State.initial (set_errno EINVAL State.initial) (by decide)⟩

/-! ## Federations of machines -/

/-- C6: for a mask the normalisation accepts (as `m`), (a) with neither scope bit
set `hwloc_set_cpubind` calls the hook of the calling process when it exists,
otherwise the hook of the calling thread when it exists, and fails with `ENOSYS`
when both are absent; (b) with the process bit set and no hook for the calling
process it fails with `ENOSYS` and calls nothing, also when the hook of the
calling thread exists. `hwloc_set_membind_nodeset` does the same. -/
theorem scope_fallback_asymmetry (T : Topology) (R N : Bitmap) (policy flags : Int)
    (s : State) :
    (∀ m, (hwloc_fix_cpubind T R s).1 = some m →
      (flag_set flags HWLOC_CPUBIND_PROCESS = false →
        flag_set flags HWLOC_CPUBIND_THREAD = false →
        (∀ hook, T.set_thisproc_cpubind = some hook →
          hwloc_set_cpubind T R flags s
            = invoke (Call.set_thisproc_cpubind m flags) (hook m flags) s) ∧
        (∀ hook, T.set_thisproc_cpubind = none → T.set_thisthread_cpubind = some hook →
          hwloc_set_cpubind T R flags s
            = invoke (Call.set_thisthread_cpubind m flags) (hook m flags) s) ∧
        (T.set_thisproc_cpubind = none → T.set_thisthread_cpubind = none →
          hwloc_set_cpubind T R flags s = (-1, set_errno ENOSYS s))) ∧
      (flag_set flags HWLOC_CPUBIND_PROCESS = true → T.set_thisproc_cpubind = none →
        hwloc_set_cpubind T R flags s = (-1, set_errno ENOSYS s))) ∧
    (∀ n, (hwloc_fix_membind T N s).1 = some n →
      (flag_set flags HWLOC_MEMBIND_PROCESS = false →
        flag_set flags HWLOC_MEMBIND_THREAD = false →
        (∀ hook, T.set_thisproc_membind = some hook →
          hwloc_set_membind_nodeset T N policy flags s
            = invoke (Call.set_thisproc_membind n policy flags) (hook n policy flags) s) ∧
        (∀ hook, T.set_thisproc_membind = none → T.set_thisthread_membind = some hook →
          hwloc_set_membind_nodeset T N policy flags s
            = invoke (Call.set_thisthread_membind n policy flags) (hook n policy flags) s) ∧
        (T.set_thisproc_membind = none → T.set_thisthread_membind = none →
          hwloc_set_membind_nodeset T N policy flags s = (-1, set_errno ENOSYS s))) ∧
      (flag_set flags HWLOC_MEMBIND_PROCESS = true → T.set_thisproc_membind = none →
        hwloc_set_membind_nodeset T N policy flags s = (-1, set_errno ENOSYS s))) := by
  constructor
  · intro m hm
    rcases fix_cpubind_cases T R with ⟨m', -, -, hf⟩ | ⟨e, -, hf⟩
    · rw [hf] at hm
      simp only [Option.some.injEq] at hm
      subst hm
      refine ⟨fun hP hT => ⟨?_, ?_, ?_⟩, ?_⟩
      · intro hook hp
        simp [hwloc_set_cpubind, hf, hP, hT, hp]
      · intro hook hp ht
        simp [hwloc_set_cpubind, hf, hP, hT, hp, ht]
      · intro hp ht
        simp [hwloc_set_cpubind, hf, hP, hT, hp, ht]
      · intro hP hp
        simp [hwloc_set_cpubind, hf, hP, hp]
    · rw [hf] at hm
      simp at hm
  · intro n hn
    rcases fix_membind_cases T N with ⟨n', C, -, -, -, hf⟩ | ⟨e, -, hf⟩
    · rw [hf] at hn
      simp only [Option.some.injEq] at hn
      subst hn
      refine ⟨fun hP hT => ⟨?_, ?_, ?_⟩, ?_⟩
      · intro hook hp
        simp [hwloc_set_membind_nodeset, hf, hP, hT, hp]
      · intro hook hp ht
        simp [hwloc_set_membind_nodeset, hf, hP, hT, hp, ht]
      · intro hp ht
        simp [hwloc_set_membind_nodeset, hf, hP, hT, hp, ht]
      · intro hP hp
        simp [hwloc_set_membind_nodeset, hf, hP, hp]
    · rw [hf] at hn
      simp at hn

/-- C6 at a concrete input: on the sample machine with only the hooks of the
calling thread, the accepted mask `{1}` reaches the hook of the calling thread
when no scope bit is set, and the request fails with `ENOSYS`, calling
nothing, when the process bit is set. -/
theorem scope_fallback_asymmetry_witness :
    (hwloc_fix_cpubind Topology.thread_only {1} State.initial).1 = some {1} ∧
    (hwloc_set_cpubind Topology.thread_only {1} 0 State.initial).1 = 0 ∧
    (hwloc_set_cpubind Topology.thread_only {1} 0 State.initial).2.calls
      = [Call.set_thisthread_cpubind {1} 0] ∧
    hwloc_set_cpubind Topology.thread_only {1} 1 State.initial
      = (-1, set_errno ENOSYS State.initial) := by
  have h0 := (scope_fallback_asymmetry Topology.thread_only {1} {1} 0 0 State.initial).1
    {1} (by decide)
  have h1 := (scope_fallback_asymmetry Topology.thread_only {1} {1} 0 1 State.initial).1
    {1} (by decide)
  refine ⟨by decide, ?_, ?_, h1.2 (by decide) rfl⟩
  · rw [(h0.1 (by decide) (by decide)).2.1 _ rfl rfl]
    rfl
  · rw [(h0.1 (by decide) (by decide)).2.1 _ rfl rfl]
    rfl

/-- C7, as the code has it: with the thread bit set and the process bit clear,
`hwloc_set_cpubind` (on a mask the normalisation accepts as `m`),
`hwloc_get_cpubind`, `hwloc_set_membind_nodeset` (on a node set accepted as `n`)
and `hwloc_get_membind_nodeset` call the hook of the calling thread and nothing
else when it exists, whether or not the hook of the calling process exists, and
fail with `ENOSYS`, calling nothing, when it is absent. -/
theorem explicit_thread_scope (T : Topology) (R N set nodeset : Bitmap)
    (policy flags : Int) (s : State) :
    (flag_set flags HWLOC_CPUBIND_THREAD = true →
      flag_set flags HWLOC_CPUBIND_PROCESS = false →
      (∀ m, (hwloc_fix_cpubind T R s).1 = some m →
        (∀ hook, T.set_thisthread_cpubind = some hook →
          hwloc_set_cpubind T R flags s
            = invoke (Call.set_thisthread_cpubind m flags) (hook m flags) s) ∧
        (T.set_thisthread_cpubind = none →
          hwloc_set_cpubind T R flags s = (-1, set_errno ENOSYS s))) ∧
      (∀ hook, T.get_thisthread_cpubind = some hook →
        hwloc_get_cpubind T set flags s
          = invoke (Call.get_thisthread_cpubind set flags) (hook set flags) s) ∧
      (T.get_thisthread_cpubind = none →
        hwloc_get_cpubind T set flags s = ((-1, set), set_errno ENOSYS s))) ∧
    (flag_set flags HWLOC_MEMBIND_THREAD = true →
      flag_set flags HWLOC_MEMBIND_PROCESS = false →
      (∀ n, (hwloc_fix_membind T N s).1 = some n →
        (∀ hook, T.set_thisthread_membind = some hook →
          hwloc_set_membind_nodeset T N policy flags s
            = invoke (Call.set_thisthread_membind n policy flags) (hook n policy flags) s) ∧
        (T.set_thisthread_membind = none →
          hwloc_set_membind_nodeset T N policy flags s = (-1, set_errno ENOSYS s))) ∧
      (∀ hook, T.get_thisthread_membind = some hook →
        hwloc_get_membind_nodeset T nodeset policy flags s
          = invoke (Call.get_thisthread_membind nodeset policy flags)
              (hook nodeset policy flags) s) ∧
      (T.get_thisthread_membind = none →
        hwloc_get_membind_nodeset T nodeset policy flags s
          = ((-1, nodeset, policy), set_errno ENOSYS s))) := by
  constructor
  · intro hT hP
    refine ⟨?_, ?_, ?_⟩
    · intro m hm
      rcases fix_cpubind_cases T R with ⟨m', -, -, hf⟩ | ⟨e, -, hf⟩
      · rw [hf] at hm
        simp only [Option.some.injEq] at hm
        subst hm
        constructor
        · intro hook ht
          simp [hwloc_set_cpubind, hf, hP, hT, ht]
        · intro ht
          simp [hwloc_set_cpubind, hf, hP, hT, ht]
      · rw [hf] at hm
        simp at hm
    · intro hook ht
      simp [hwloc_get_cpubind, hP, hT, ht]
    · intro ht
      simp [hwloc_get_cpubind, hP, hT, ht]
  · intro hT hP
    refine ⟨?_, ?_, ?_⟩
    · intro n hn
      rcases fix_membind_cases T N with ⟨n', C, -, -, -, hf⟩ | ⟨e, -, hf⟩
      · rw [hf] at hn
        simp only [Option.some.injEq] at hn
        subst hn
        constructor
        · intro hook ht
          simp [hwloc_set_membind_nodeset, hf, hP, hT, ht]
        · intro ht
          simp [hwloc_set_membind_nodeset, hf, hP, hT, ht]
      · rw [hf] at hn
        simp at hn
    · intro hook ht
      simp [hwloc_get_membind_nodeset, hP, hT, ht]
    · intro ht
      simp [hwloc_get_membind_nodeset, hP, hT, ht]

/-- C7 at a concrete input: on the sample machine, where the hooks of the calling
process exist too, flags `2` (thread bit alone) send the accepted mask `{1}` to
the hook of the calling thread and to no other. -/
theorem explicit_thread_scope_witness :
    flag_set 2 HWLOC_CPUBIND_THREAD = true ∧
    flag_set 2 HWLOC_CPUBIND_PROCESS = false ∧
    (hwloc_fix_cpubind Topology.sample {1} State.initial).1 = some {1} ∧
    (hwloc_set_cpubind Topology.sample {1} 2 State.initial).2.calls
      = [Call.set_thisthread_cpubind {1} 2] := by
  have h := ((explicit_thread_scope Topology.sample {1} {1} ∅ ∅ 0 2 State.initial).1
    (by decide) (by decide)).1 {1} (by decide)
  refine ⟨by decide, by decide, by decide, ?_⟩
  rw [h.1 _ rfl]
  rfl

/-- C7 as stated fails when the process bit is set as well: with flags `3` the
accepted mask `{1}` goes to the hook of the calling process, not to the hook of
the calling thread; and where only the hook of the calling thread exists the
request fails with `ENOSYS` and that hook is not called. -/
theorem thread_bit_yields_to_process_bit :
    flag_set 3 HWLOC_CPUBIND_THREAD = true ∧
    (hwloc_fix_cpubind Topology.sample {1} State.initial).1 = some {1} ∧
    (hwloc_set_cpubind Topology.sample {1} 3 State.initial).2.calls
      = [Call.set_thisproc_cpubind {1} 3] ∧
    Topology.thread_only.set_thisthread_cpubind.isSome = true ∧
    hwloc_set_cpubind Topology.thread_only {1} 3 State.initial
      = (-1, set_errno ENOSYS State.initial) := by
  decide

/-! ## Requests that cover everything usable -/

theorem fix_cpubind_everything (T : Topology) (R U : Bitmap)
    (hU : T.topology_cpuset = some U) (hR : R ⊆ T.complete_cpuset) (hUR : U ⊆ R)
    (s : State) : hwloc_fix_cpubind T R s = (some T.complete_cpuset, s) := by
  simp [hwloc_fix_cpubind, hU, hwloc_bitmap_isincluded, hR, hUR]

theorem fix_membind_everything (T : Topology) (N U C : Bitmap)
    (hU : T.topology_cpuset = some U) (hC : T.complete_nodeset = some C) (hN : N ⊆ C)
    (hTN : T.nodeset ⊆ N) (s : State) : hwloc_fix_membind T N s = (some C, s) := by
  simp [hwloc_fix_membind, hU, hC, hwloc_bitmap_isincluded, hN, hTN]

theorem fix_membind_complete (T : Topology) (U C : Bitmap)
    (hU : T.topology_cpuset = some U) (hC : T.complete_nodeset = some C) (s : State) :
    hwloc_fix_membind T C s = (some C, s) := by
  by_cases h : T.nodeset ⊆ C <;> simp [hwloc_fix_membind, hU, hC, hwloc_bitmap_isincluded, h]

theorem fix_membind_cpuset_everything (T : Topology) (R U : Bitmap)
    (hU : T.topology_cpuset = some U) (hR : R ⊆ T.complete_cpuset) (hUR : U ⊆ R)
    (n : Bitmap) (s : State) :
    hwloc_fix_membind_cpuset T n R s =
      match T.complete_nodeset with
      | none => ((-1, n), set_errno ENODEV s)
      | some C => ((0, C), s) := by
  cases hC : T.complete_nodeset <;>
    simp [hwloc_fix_membind_cpuset, hU, hC, hwloc_bitmap_isincluded, hR, hUR]

theorem normalize_everything (T : Topology) (op : SetOp) (R U : Bitmap) (s : State)
    (hU : T.topology_cpuset = some U)
    (hc : op.takes_nodeset = false → R ⊆ T.complete_cpuset ∧ U ⊆ R)
    (hn : op.takes_nodeset = true →
      ∃ C, T.complete_nodeset = some C ∧ R ⊆ C ∧ T.nodeset ⊆ R) :
    (op.normalize T R s).1 =
      if op.binds_memory then T.complete_nodeset else some T.complete_cpuset := by
  cases op <;> simp only [SetOp.takes_nodeset] at hc hn <;>
    simp only [SetOp.normalize, SetOp.binds_memory]
  case set_cpubind | set_proc_cpubind | set_thread_cpubind =>
    simp [fix_cpubind_everything T R U hU (hc trivial).1 (hc trivial).2]
  case set_membind_nodeset | set_proc_membind_nodeset | set_area_membind_nodeset
      | alloc_membind_nodeset =>
    obtain ⟨C, hC, hR, hTR⟩ := hn trivial
    simp [fix_membind_everything T R U C hU hC hR hTR, hC]
  case set_membind | set_proc_membind | set_area_membind | alloc_membind =>
    simp only [fix_membind_of_cpuset,
      fix_membind_cpuset_everything T R U hU (hc trivial).1 (hc trivial).2]
    cases hC : T.complete_nodeset with
    | none => simp
    | some C => simp [fix_membind_complete T U C hU hC]

theorem run_everything (T : Topology) (libc : Libc) (op : SetOp) (R1 R2 U : Bitmap)
    (s : State) (hU : T.topology_cpuset = some U)
    (hc : op.takes_nodeset = false →
      (R1 ⊆ T.complete_cpuset ∧ U ⊆ R1) ∧ (R2 ⊆ T.complete_cpuset ∧ U ⊆ R2))
    (hn : op.takes_nodeset = true →
      ∃ C, T.complete_nodeset = some C ∧ (R1 ⊆ C ∧ T.nodeset ⊆ R1) ∧
        (R2 ⊆ C ∧ T.nodeset ⊆ R2)) :
    op.run T libc R1 s = op.run T libc R2 s := by
  cases op <;> simp only [SetOp.takes_nodeset] at hc hn <;> simp only [SetOp.run]
  case set_cpubind | set_proc_cpubind | set_thread_cpubind =>
    obtain ⟨⟨h1, h1'⟩, h2, h2'⟩ := hc trivial
    simp only [hwloc_set_cpubind, hwloc_set_proc_cpubind, hwloc_set_thread_cpubind,
      fix_cpubind_everything T R1 U hU h1 h1', fix_cpubind_everything T R2 U hU h2 h2']
  case set_membind_nodeset | set_proc_membind_nodeset | set_area_membind_nodeset
      | alloc_membind_nodeset =>
    obtain ⟨C, hC, ⟨h1, h1'⟩, h2, h2'⟩ := hn trivial
    simp only [hwloc_set_membind_nodeset, hwloc_set_proc_membind_nodeset,
      hwloc_set_area_membind_nodeset, hwloc_alloc_membind_nodeset,
      fix_membind_everything T R1 U C hU hC h1 h1',
      fix_membind_everything T R2 U C hU hC h2 h2']
  case set_membind | set_proc_membind | set_area_membind | alloc_membind =>
    obtain ⟨⟨h1, h1'⟩, h2, h2'⟩ := hc trivial
    simp only [hwloc_set_membind, hwloc_set_proc_membind, hwloc_set_area_membind,
      hwloc_alloc_membind, hwloc_bitmap_alloc,
      fix_membind_cpuset_everything T R1 U hU h1 h1',
      fix_membind_cpuset_everything T R2 U hU h2 h2']

/-- C8: on a topology with a usable cpuset `U`, take two requested masks that
both lie within the complete mask and both cover the usable mask (complete
cpuset and `U` for an operation taking a cpuset, complete node set and root node
set for an operation taking a node set). Then each set-side or allocate
operation does exactly the same on both: same return value, same `errno`, same
calls with the same arguments; and any mask a hook receives is the topology's
complete mask of the hook's kind. -/
theorem bind_to_everything_equivalence (T : Topology) (libc : Libc) (op : SetOp)
    (R1 R2 U : Bitmap) (s : State) (hU : T.topology_cpuset = some U)
    (hc : op.takes_nodeset = false →
      (R1 ⊆ T.complete_cpuset ∧ U ⊆ R1) ∧ (R2 ⊆ T.complete_cpuset ∧ U ⊆ R2))
    (hn : op.takes_nodeset = true →
      ∃ C, T.complete_nodeset = some C ∧ (R1 ⊆ C ∧ T.nodeset ⊆ R1) ∧
        (R2 ⊆ C ∧ T.nodeset ⊆ R2)) :
    op.run T libc R1 s = op.run T libc R2 s ∧
    ∃ new, (op.run T libc R1 s).2.calls = s.calls ++ new ∧
      ∀ c ∈ new,
        (∀ m, c.passed_cpuset = some m → m = T.complete_cpuset) ∧
        (∀ m, c.passed_nodeset = some m → T.complete_nodeset = some m) := by
  refine ⟨run_everything T libc op R1 R2 U s hU hc hn, ?_⟩
  obtain ⟨new, hnew, hcar⟩ := run_grows T libc op R1 s
  have hnorm := normalize_everything T op R1 U s hU (fun h => (hc h).1)
    (fun h => by
      obtain ⟨C, hC, h1, -⟩ := hn h
      exact ⟨C, hC, h1⟩)
  refine ⟨new, hnew, fun c hmem => ⟨fun m hm => ?_, fun m hm => ?_⟩⟩
  · have h1 := (hcar c hmem).1 m hm
    rw [hnorm] at h1
    cases hb : op.binds_memory <;> simp [hb] at h1
    exact h1.symm
  · have h1 := (hcar c hmem).2 m hm
    rw [hnorm] at h1
    cases hb : op.binds_memory <;> simp [hb] at h1
    exact h1

/-- C8 at a concrete input: on the sample machine (usable `{0}`, complete
`{0, 1}`) the requests `{0}` and `{0, 1}` to `hwloc_set_cpubind` are the same
call of the hook of the calling process, on the complete cpuset. -/
theorem bind_to_everything_equivalence_witness :
    Topology.sample.topology_cpuset = some {0} ∧
    (SetOp.set_cpubind 0).run Topology.sample Libc.failing {0} State.initial
      = (SetOp.set_cpubind 0).run Topology.sample Libc.failing {0, 1} State.initial ∧
    ((SetOp.set_cpubind 0).run Topology.sample Libc.failing {0} State.initial).2.calls
      = [Call.set_thisproc_cpubind {0, 1} 0] :=
  ⟨rfl,
    (bind_to_everything_equivalence Topology.sample Libc.failing (SetOp.set_cpubind 0)
      {0} {0, 1} {0} State.initial rfl (fun _ => by decide) (fun h => by cases h)).1,
    by decide⟩

/-! ## Canonical form -/

/-- C9: on a topology that is not ambiguous, `hwloc_fix_cpubind` of the complete
cpuset succeeds and returns it, and `hwloc_fix_cpubind` is idempotent: a mask it
returns is returned again when normalised. The same holds for
`hwloc_fix_membind` when a complete node set exists. Nothing is assumed about
the usable mask lying within the complete mask. -/
theorem canonicalization_idempotent (T : Topology) (R N : Bitmap) (s : State) :
    (∀ U, T.topology_cpuset = some U →
      hwloc_fix_cpubind T T.complete_cpuset s = (some T.complete_cpuset, s)) ∧
    (∀ R', (hwloc_fix_cpubind T R s).1 = some R' →
      hwloc_fix_cpubind T R' s = (some R', s)) ∧
    (∀ U C, T.topology_cpuset = some U → T.complete_nodeset = some C →
      hwloc_fix_membind T C s = (some C, s)) ∧
    (∀ N', (hwloc_fix_membind T N s).1 = some N' →
      hwloc_fix_membind T N' s = (some N', s)) := by
  have hcpu : ∀ U, T.topology_cpuset = some U →
      hwloc_fix_cpubind T T.complete_cpuset s = (some T.complete_cpuset, s) := by
    intro U hU
    by_cases h : U ⊆ T.complete_cpuset <;>
      simp [hwloc_fix_cpubind, hU, hwloc_bitmap_isincluded, h]
  refine ⟨hcpu, ?_, fun U C hU hC => fix_membind_complete T U C hU hC s, ?_⟩
  · intro R' hR'
    cases hU : T.topology_cpuset with
    | none => simp [hwloc_fix_cpubind, hU] at hR'
    | some U =>
      by_cases hR : R ⊆ T.complete_cpuset
      · by_cases hUR : U ⊆ R
        · simp [hwloc_fix_cpubind, hU, hwloc_bitmap_isincluded, hR, hUR] at hR'
          subst hR'
          exact hcpu U hU
        · simp [hwloc_fix_cpubind, hU, hwloc_bitmap_isincluded, hR, hUR] at hR'
          subst hR'
          simp [hwloc_fix_cpubind, hU, hwloc_bitmap_isincluded, hR, hUR]
      · simp [hwloc_fix_cpubind, hU, hwloc_bitmap_isincluded, hR] at hR'
  · intro N' hN'
    cases hU : T.topology_cpuset with
    | none => simp [hwloc_fix_membind, hU] at hN'
    | some U =>
      cases hC : T.complete_nodeset with
      | none => simp [hwloc_fix_membind, hU, hC] at hN'
      | some C =>
        by_cases hN : N ⊆ C
        · by_cases hTN : T.nodeset ⊆ N
          · simp [hwloc_fix_membind, hU, hC, hwloc_bitmap_isincluded, hN, hTN] at hN'
            subst hN'
            exact fix_membind_complete T U _ hU hC s
          · simp [hwloc_fix_membind, hU, hC, hwloc_bitmap_isincluded, hN, hTN] at hN'
            subst hN'
            simp [hwloc_fix_membind, hU, hC, hwloc_bitmap_isincluded, hN, hTN]
        · simp [hwloc_fix_membind, hU, hC, hwloc_bitmap_isincluded, hN] at hN'

/-- C9 at a concrete input: on the sample machine, `{1}` normalises to itself and
`{0}` to the complete cpuset `{0, 1}`, and both results normalise to
themselves. -/
theorem canonicalization_idempotent_witness :
    (hwloc_fix_cpubind Topology.sample {1} State.initial).1 = some {1} ∧
    hwloc_fix_cpubind Topology.sample {1} State.initial = (some {1}, State.initial) ∧
    (hwloc_fix_cpubind Topology.sample {0} State.initial).1 = some {0, 1} ∧
    hwloc_fix_cpubind Topology.sample {0, 1} State.initial
      = (some {0, 1}, State.initial) :=
  ⟨by decide,
    (canonicalization_idempotent Topology.sample {1} ∅ State.initial).2.1 {1} (by decide),
    by decide,
    (canonicalization_idempotent Topology.sample {0} ∅ State.initial).2.1 {0, 1}
      (by decide)⟩

/-- C10, as the code has it: on a topology with a usable cpuset `U`, a requested
mask that covers the usable mask and lies within the complete mask normalises
to the complete mask: `hwloc_fix_cpubind` for `U` and the complete cpuset,
`hwloc_fix_membind` for the root node set and the complete node set, when there
is one. -/
theorem covering_mask_normalizes_to_complete (T : Topology) (R N U : Bitmap) (s : State)
    (hU : T.topology_cpuset = some U) :
    (U ⊆ R → R ⊆ T.complete_cpuset →
      hwloc_fix_cpubind T R s = (some T.complete_cpuset, s)) ∧
    (∀ C, T.complete_nodeset = some C → T.nodeset ⊆ N → N ⊆ C →
      hwloc_fix_membind T N s = (some C, s)) := by
  constructor
  · intro hUR hR
    simp [hwloc_fix_cpubind, hU, hwloc_bitmap_isincluded, hR, hUR]
  · intro C hC hTN hN
    simp [hwloc_fix_membind, hU, hC, hwloc_bitmap_isincluded, hN, hTN]

/-- C10 at a concrete input: on the sample machine the cpuset `{0}` covers the
usable cpuset `{0}` and normalises to the complete cpuset `{0, 1}`; likewise
the node set `{0}`. -/
theorem covering_mask_normalizes_to_complete_witness :
    Topology.sample.topology_cpuset = some {0} ∧
    hwloc_fix_cpubind Topology.sample {0} State.initial = (some {0, 1}, State.initial) ∧
    hwloc_fix_membind Topology.sample {0} State.initial = (some {0, 1}, State.initial) :=
  have h := covering_mask_normalizes_to_complete Topology.sample {0} {0} {0} State.initial rfl
  ⟨rfl, h.1 (by decide) (by decide), h.2 {0, 1} rfl (by decide) (by decide)⟩

/-- C10 as stated fails for a mask that covers the usable mask but leaves the
complete mask: on the sample machine `{0, 5}` covers the usable cpuset `{0}`
and the root node set `{0}`, and both normalisations fail with `EINVAL`. -/
theorem covering_mask_outside_complete :
    Topology.sample.topology_cpuset = some {0} ∧
    ({0} : Bitmap) ⊆ {0, 5} ∧
    Topology.sample.nodeset ⊆ ({0, 5} : Bitmap) ∧
    hwloc_fix_cpubind Topology.sample {0, 5} State.initial
      = (none, set_errno EINVAL State.initial) ∧
    hwloc_fix_membind Topology.sample {0, 5} State.initial
      = (none, set_errno EINVAL State.initial) := by
  decide

/-! ## Allocation with binding -/

theorem allocate_live_blocks (libc : Libc) (len : Nat) (s : State) :
    (hwloc_allocate libc len s).2.live_blocks =
      if (hwloc_allocate libc len s).1 = 0 then s.live_blocks
      else (hwloc_allocate libc len s).1 :: s.live_blocks := by
  unfold hwloc_allocate
  cases libc.config <;> simp [allocated, set_errno]

theorem allocate_live_bitmaps (libc : Libc) (len : Nat) (s : State) :
    (hwloc_allocate libc len s).2.live_bitmaps = s.live_bitmaps := by
  unfold hwloc_allocate
  cases libc.config <;> simp [allocated, set_errno]

/-- C11, as the code has it: with the migrate bit set
`hwloc_alloc_membind_nodeset` returns `NULL` without any call leaving the file
(no generic allocation, no backend hook) and without a block becoming live;
`errno` is `EINVAL` when the normalisation accepts the node set, and the error
of the normalisation (`EXDEV`, `ENODEV` or `EINVAL`) when it does not. -/
theorem migrate_rejected_before_allocation (T : Topology) (libc : Libc) (len : Nat)
    (N : Bitmap) (policy flags : Int) (s : State)
    (hM : flag_set flags HWLOC_MEMBIND_MIGRATE = true) :
    (hwloc_alloc_membind_nodeset T libc len N policy flags s).1 = 0 ∧
    (hwloc_alloc_membind_nodeset T libc len N policy flags s).2.calls = s.calls ∧
    (hwloc_alloc_membind_nodeset T libc len N policy flags s).2.live_blocks
      = s.live_blocks ∧
    (∀ n, (hwloc_fix_membind T N s).1 = some n →
      (hwloc_alloc_membind_nodeset T libc len N policy flags s).2.errno = EINVAL) ∧
    (∀ s1, hwloc_fix_membind T N s = (none, s1) →
      (hwloc_alloc_membind_nodeset T libc len N policy flags s).2.errno = s1.errno ∧
      (s1.errno = EXDEV ∨ s1.errno = ENODEV ∨ s1.errno = EINVAL)) := by
  rcases fix_membind_cases T N with ⟨m, C, -, -, -, hf⟩ | ⟨e, he, hf⟩
  · simp [hwloc_alloc_membind_nodeset, hf, hM, set_errno]
  · have hr : hwloc_alloc_membind_nodeset T libc len N policy flags s
        = (0, set_errno e s) := by
      simp [hwloc_alloc_membind_nodeset, hf]
    rw [hr, hf]
    refine ⟨rfl, rfl, rfl, ?_, ?_⟩
    · intro n hn
      simp at hn
    · intro s1 hs1
      simp only [Prod.mk.injEq, true_and] at hs1
      subst hs1
      exact ⟨rfl, by simpa [set_errno] using he⟩

/-- C11 at a concrete input: on the sample machine, with a working allocator, the
accepted node set `{1}` and flags `8` (migrate), the allocation is refused with
`EINVAL` and nothing was called. -/
theorem migrate_rejected_before_allocation_witness :
    flag_set 8 HWLOC_MEMBIND_MIGRATE = true ∧
    (hwloc_fix_membind Topology.area_only {1} State.initial).1 = some {1} ∧
    (hwloc_alloc_membind_nodeset Topology.area_only Libc.working 16 {1} 0 8
      State.initial).1 = 0 ∧
    (hwloc_alloc_membind_nodeset Topology.area_only Libc.working 16 {1} 0 8
      State.initial).2.calls = State.initial.calls ∧
    (hwloc_alloc_membind_nodeset Topology.area_only Libc.working 16 {1} 0 8
      State.initial).2.errno = EINVAL :=
  have h := migrate_rejected_before_allocation Topology.area_only Libc.working 16 {1} 0 8
    State.initial (by decide)
  ⟨by decide, by decide, h.1, h.2.1, h.2.2.2.1 {1} (by decide)⟩

/-- C11 as stated fails where the normalisation fails first: on the federation
the request with the migrate bit set is refused with `EXDEV`, not `EINVAL`. -/
theorem migrate_on_federation :
    flag_set 8 HWLOC_MEMBIND_MIGRATE = true ∧
    hwloc_alloc_membind_nodeset Topology.federation Libc.working 16 {1} 0 8 State.initial
      = (0, set_errno EXDEV State.initial) ∧
    (set_errno EXDEV State.initial).errno ≠ EINVAL := by
  decide

/-- C12: for a node set the normalisation accepts (as `n`), without allocating
hook, with the strict bit set and the migrate bit clear: when the generic
allocator yields the block `p` and the hook binding an existing area then fails
(returns `r`, not zero, leaving `e` in `errno`), `hwloc_alloc_membind_nodeset`
returns `NULL`; the calls it made are the allocation, the hook, and one `free`
of `p`; the live blocks are those of before the call; and `errno` is `e`, the
value the hook left, whatever `free` did to it. -/
theorem strict_rollback (T : Topology) (libc : Libc) (len : Nat) (N n : Bitmap)
    (policy flags : Int) (s s1 : State) (p : Ptr) (r e : Int)
    (hook : Ptr → Nat → Bitmap → Int → Int → Ext Int)
    (hN : (hwloc_fix_membind T N s).1 = some n)
    (hA : T.alloc_membind = none) (hS : T.set_area_membind = some hook)
    (hStrict : flag_set flags HWLOC_MEMBIND_STRICT = true)
    (hM : flag_set flags HWLOC_MEMBIND_MIGRATE = false)
    (hal : hwloc_allocate libc len s = (p, s1)) (hp : p ≠ 0)
    (hb : hook p len n policy flags s1.errno = (r, e)) (hr : r ≠ 0) :
    (hwloc_alloc_membind_nodeset T libc len N policy flags s).1 = 0 ∧
    (hwloc_alloc_membind_nodeset T libc len N policy flags s).2.calls
      = s.calls ++ [Call.allocate len, Call.set_area_membind p len n policy flags,
          Call.free p] ∧
    (hwloc_alloc_membind_nodeset T libc len N policy flags s).2.live_blocks
      = s.live_blocks ∧
    (hwloc_alloc_membind_nodeset T libc len N policy flags s).2.errno = e := by
  have hc := allocate_calls libc len s
  have hl := allocate_live_blocks libc len s
  rw [hal] at hc hl
  simp only [hp, if_false] at hl
  have hc' : s1.calls = s.calls ++ [Call.allocate len] := hc
  rcases fix_membind_cases T N with ⟨m, C, -, -, -, hf⟩ | ⟨e', -, hf⟩
  · rw [hf] at hN
    simp only [Option.some.injEq] at hN
    subst hN
    simp [hwloc_alloc_membind_nodeset, hf, hM, hA, hS, hal, hp, invoke, hb, hr, hStrict,
      set_errno, free, hc', hl]
  · rw [hf] at hN
    simp at hN

/-- C12 at a concrete input: on the sample machine whose area hook always fails
with `errno` `5`, with a working allocator whose `free` overwrites `errno` with
`9`, the strict request for the node set `{1}` returns `NULL` with `errno` `5`
and leaves no block live. -/
theorem strict_rollback_witness :
    (hwloc_alloc_membind_nodeset Topology.area_failing Libc.working 16 {1} 0 4
      State.initial).1 = 0 ∧
    (hwloc_alloc_membind_nodeset Topology.area_failing Libc.working 16 {1} 0 4
      State.initial).2.calls
      = State.initial.calls ++ [Call.allocate 16, Call.set_area_membind 4096 16 {1} 0 4,
          Call.free 4096] ∧
    (hwloc_alloc_membind_nodeset Topology.area_failing Libc.working 16 {1} 0 4
      State.initial).2.live_blocks = State.initial.live_blocks ∧
    (hwloc_alloc_membind_nodeset Topology.area_failing Libc.working 16 {1} 0 4
      State.initial).2.errno = 5 :=
  strict_rollback Topology.area_failing Libc.working 16 {1} {1} 0 4 State.initial
    (allocated 16 4096 State.initial) 4096 (-1) 5 (fun _ _ _ _ _ _ => (-1, 5))
    (by decide) rfl rfl (by decide) (by decide) (by decide) (by decide) rfl (by decide)

/-! ## Release -/

/-- C13, what the code does: without dedicated release hook and with a hook
binding an existing area, `hwloc_free_membind` releases the address with `free`
and then goes on to the failure exit: it returns `-1` with `errno` set to
`ENOSYS`, as it does when both hooks are absent. -/
theorem free_membind_generic_release (T : Topology) (libc : Libc) (addr : Ptr) (len : Nat)
    (s : State) (hook : Ptr → Nat → Bitmap → Int → Int → Ext Int)
    (hF : T.free_membind = none) (hS : T.set_area_membind = some hook) :
    hwloc_free_membind T libc addr len s = (-1, set_errno ENOSYS (free libc addr s)) ∧
    (hwloc_free_membind T libc addr len s).1 ≠ 0 ∧
    (hwloc_free_membind T libc addr len s).2.errno = ENOSYS ∧
    (hwloc_free_membind T libc addr len s).2.calls = s.calls ++ [Call.free addr] := by
  simp [hwloc_free_membind, hF, hS, set_errno, free]

/-- C13 at a concrete input: on the sample machine with an area hook and no
release hook, releasing the live block at `4096` frees it and still returns
`-1` with `ENOSYS`. -/
theorem free_membind_generic_release_witness :
    hwloc_free_membind Topology.area_only Libc.working 4096 16
        (allocated 16 4096 State.initial)
      = (-1, { errno := ENOSYS, calls := [Call.allocate 16, Call.free 4096],
               live_blocks := [], live_bitmaps := 0 }) :=
  (free_membind_generic_release Topology.area_only Libc.working 4096 16
    (allocated 16 4096 State.initial) (fun _ _ _ _ _ e => (0, e)) rfl rfl).1

theorem alloc_membind_nodeset_backend (T : Topology) (libc : Libc) (len : Nat) (N n : Bitmap)
    (policy flags : Int) (s : State) (ha : Nat → Bitmap → Int → Int → Ext Ptr)
    (hN : (hwloc_fix_membind T N s).1 = some n) (hA : T.alloc_membind = some ha)
    (hM : flag_set flags HWLOC_MEMBIND_MIGRATE = false) :
    hwloc_alloc_membind_nodeset T libc len N policy flags s
      = invoke (Call.alloc_membind len n policy flags) (ha len n policy flags) s := by
  rcases fix_membind_cases T N with ⟨m, C, -, -, -, hf⟩ | ⟨e', -, hf⟩
  · rw [hf] at hN
    simp only [Option.some.injEq] at hN
    subst hN
    simp [hwloc_alloc_membind_nodeset, hf, hM, hA]
  · rw [hf] at hN
    simp at hN

theorem alloc_membind_nodeset_migrate (T : Topology) (libc : Libc) (len : Nat) (N : Bitmap)
    (policy flags : Int) (s : State)
    (hM : flag_set flags HWLOC_MEMBIND_MIGRATE = true) :
    (hwloc_alloc_membind_nodeset T libc len N policy flags s).1 = 0 := by
  rcases fix_membind_cases T N with ⟨m, C, -, -, -, hf⟩ | ⟨e', -, hf⟩ <;>
    simp [hwloc_alloc_membind_nodeset, hf, hM]

theorem alloc_membind_nodeset_area (T : Topology) (libc : Libc) (len : Nat) (N n : Bitmap)
    (policy flags : Int) (s : State) (hs : Ptr → Nat → Bitmap → Int → Int → Ext Int)
    (hN : (hwloc_fix_membind T N s).1 = some n) (hA : T.alloc_membind = none)
    (hS : T.set_area_membind = some hs)
    (hM : flag_set flags HWLOC_MEMBIND_MIGRATE = false) :
    hwloc_alloc_membind_nodeset T libc len N policy flags s =
      if (hwloc_allocate libc len s).1 = 0 then (0, (hwloc_allocate libc len s).2)
      else if (invoke (Call.set_area_membind (hwloc_allocate libc len s).1 len n policy flags)
          (hs (hwloc_allocate libc len s).1 len n policy flags)
          (hwloc_allocate libc len s).2).1 ≠ 0 ∧
          flag_set flags HWLOC_MEMBIND_STRICT = true then
        (0, set_errno
          (invoke (Call.set_area_membind (hwloc_allocate libc len s).1 len n policy flags)
            (hs (hwloc_allocate libc len s).1 len n policy flags)
            (hwloc_allocate libc len s).2).2.errno
          (free libc (hwloc_allocate libc len s).1
            (invoke (Call.set_area_membind (hwloc_allocate libc len s).1 len n policy flags)
              (hs (hwloc_allocate libc len s).1 len n policy flags)
              (hwloc_allocate libc len s).2).2))
      else
        ((hwloc_allocate libc len s).1,
          (invoke (Call.set_area_membind (hwloc_allocate libc len s).1 len n policy flags)
            (hs (hwloc_allocate libc len s).1 len n policy flags)
            (hwloc_allocate libc len s).2).2) := by
  rcases fix_membind_cases T N with ⟨m, C, -, -, -, hf⟩ | ⟨e', -, hf⟩
  · rw [hf] at hN
    simp only [Option.some.injEq] at hN
    subst hN
    simp [hwloc_alloc_membind_nodeset, hf, hM, hA, hS]
  · rw [hf] at hN
    simp at hN

theorem alloc_membind_nodeset_plain (T : Topology) (libc : Libc) (len : Nat) (N n : Bitmap)
    (policy flags : Int) (s : State)
    (hN : (hwloc_fix_membind T N s).1 = some n) (hA : T.alloc_membind = none)
    (hS : T.set_area_membind = none)
    (hM : flag_set flags HWLOC_MEMBIND_MIGRATE = false) :
    hwloc_alloc_membind_nodeset T libc len N policy flags s =
      if flag_set flags HWLOC_MEMBIND_STRICT = true then (0, set_errno ENOSYS s)
      else hwloc_allocate libc len s := by
  rcases fix_membind_cases T N with ⟨m, C, -, -, -, hf⟩ | ⟨e', -, hf⟩
  · rw [hf] at hN
    simp only [Option.some.injEq] at hN
    subst hN
    cases hStrict : flag_set flags HWLOC_MEMBIND_STRICT <;>
      simp [hwloc_alloc_membind_nodeset, hf, hM, hA, hS, hStrict]
  · rw [hf] at hN
    simp at hN

/-- C14, as the code has it: let `hwloc_alloc_membind_nodeset` succeed with the
block `p` for a node set the normalisation accepts (as `n`), and let
`hwloc_free_membind` be called on `p` with the same capability table. When the
allocating hook and the dedicated release hook both exist, the block came from
the allocating hook and is released by one call of the release hook, and `free`
is not called. When both are absent and the hook binding an existing area
exists, the block came from the generic allocator and is released by one call
of `free`, after which the live blocks are those of before the allocation. -/
theorem allocate_release_pairing (T : Topology) (libc : Libc) (len : Nat) (N n : Bitmap)
    (policy flags : Int) (s s1 : State) (p : Ptr)
    (hN : (hwloc_fix_membind T N s).1 = some n)
    (hal : hwloc_alloc_membind_nodeset T libc len N policy flags s = (p, s1))
    (hp : p ≠ 0) :
    (∀ ha hf, T.alloc_membind = some ha → T.free_membind = some hf →
      s1.calls = s.calls ++ [Call.alloc_membind len n policy flags] ∧
      s1.live_blocks = s.live_blocks ∧
      (hwloc_free_membind T libc p len s1).2.calls = s1.calls ++ [Call.free_membind p len] ∧
      (hwloc_free_membind T libc p len s1).2.live_blocks = s.live_blocks) ∧
    (∀ hs, T.alloc_membind = none → T.free_membind = none → T.set_area_membind = some hs →
      p = (hwloc_allocate libc len s).1 ∧
      s1.calls = s.calls ++ [Call.allocate len, Call.set_area_membind p len n policy flags] ∧
      s1.live_blocks = p :: s.live_blocks ∧
      (hwloc_free_membind T libc p len s1).2.calls = s1.calls ++ [Call.free p] ∧
      (hwloc_free_membind T libc p len s1).2.live_blocks = s.live_blocks) := by
  have hM : flag_set flags HWLOC_MEMBIND_MIGRATE = false := by
    cases hM : flag_set flags HWLOC_MEMBIND_MIGRATE
    · rfl
    · have h0 := alloc_membind_nodeset_migrate T libc len N policy flags s hM
      rw [hal] at h0
      exact absurd h0 hp
  constructor
  · intro ha hf hA hF
    rw [alloc_membind_nodeset_backend T libc len N n policy flags s ha hN hA hM] at hal
    simp only [invoke, Prod.mk.injEq] at hal
    obtain ⟨-, rfl⟩ := hal
    simp [hwloc_free_membind, hF, invoke]
  · intro hs hA hF hS
    rw [alloc_membind_nodeset_area T libc len N n policy flags s hs hN hA hS hM] at hal
    have hc := allocate_calls libc len s
    have hl := allocate_live_blocks libc len s
    split_ifs at hal with h0 h1
    · simp only [Prod.mk.injEq] at hal
      exact absurd hal.1.symm hp
    · simp only [Prod.mk.injEq] at hal
      exact absurd hal.1.symm hp
    · simp only [Prod.mk.injEq] at hal
      obtain ⟨rfl, rfl⟩ := hal
      simp only [h0, if_false] at hl
      simp [hwloc_free_membind, hF, hS, invoke, free, set_errno, hc, hl]

/-- C14 at a concrete input: with the allocating and the release hook of
`Topology.backend_pair`, the block at `8192` comes from the allocating hook and
goes back through the release hook. -/
theorem allocate_release_pairing_witness :
    hwloc_alloc_membind_nodeset Topology.backend_pair Libc.working 16 {1} 0 0 State.initial
      = (8192, { State.initial with calls := [Call.alloc_membind 16 {1} 0 0] }) ∧
    (hwloc_free_membind Topology.backend_pair Libc.working 8192 16
      { State.initial with calls := [Call.alloc_membind 16 {1} 0 0] }).2.calls
      = [Call.alloc_membind 16 {1} 0 0, Call.free_membind 8192 16] :=
  ⟨by decide,
    ((allocate_release_pairing Topology.backend_pair Libc.working 16 {1} {1} 0 0
      State.initial { State.initial with calls := [Call.alloc_membind 16 {1} 0 0] } 8192
      (by decide) (by decide) (by decide)).1 _ _ rfl rfl).2.2.1⟩

/-- C14 as stated fails for a capability table with a release hook and no
allocating hook: the block at `4096` comes from the generic allocator, and
`hwloc_free_membind` hands it to the release hook of the backend; `free` is not
called and the block stays live. -/
theorem generic_block_released_by_backend :
    hwloc_alloc_membind_nodeset Topology.release_only Libc.working 16 {1} 0 0 State.initial
      = (4096, { State.initial with
          calls := [Call.allocate 16, Call.set_area_membind 4096 16 {1} 0 0],
          live_blocks := [4096] }) ∧
    hwloc_free_membind Topology.release_only Libc.working 4096 16
        { State.initial with
          calls := [Call.allocate 16, Call.set_area_membind 4096 16 {1} 0 0],
          live_blocks := [4096] }
      = (0, { State.initial with
          calls := [Call.allocate 16, Call.set_area_membind 4096 16 {1} 0 0,
            Call.free_membind 4096 16],
          live_blocks := [4096] }) := by
  decide

/-- The plain fallback of `hwloc_alloc_membind_nodeset` has no counterpart in
`hwloc_free_membind`: without any memory hook and without the strict bit the
block comes from the generic allocator, and `hwloc_free_membind` then fails with
`ENOSYS` without calling anything, so that the block stays live. -/
theorem plain_fallback_block_stays_live (T : Topology) (libc : Libc) (len : Nat)
    (N n : Bitmap) (policy flags : Int) (s : State)
    (hN : (hwloc_fix_membind T N s).1 = some n)
    (hA : T.alloc_membind = none) (hS : T.set_area_membind = none)
    (hF : T.free_membind = none)
    (hM : flag_set flags HWLOC_MEMBIND_MIGRATE = false)
    (hStrict : flag_set flags HWLOC_MEMBIND_STRICT = false) :
    hwloc_alloc_membind_nodeset T libc len N policy flags s = hwloc_allocate libc len s ∧
    ∀ p s1, hwloc_allocate libc len s = (p, s1) →
      hwloc_free_membind T libc p len s1 = (-1, set_errno ENOSYS s1) := by
  refine ⟨?_, ?_⟩
  · rw [alloc_membind_nodeset_plain T libc len N n policy flags s hN hA hS hM]
    simp [hStrict]
  · intro p s1 _
    simp [hwloc_free_membind, hF, hS]

/-! ## Operations with a single hook -/

/-- C15: each of `hwloc_set_proc_cpubind`, `hwloc_get_proc_cpubind`,
`hwloc_set_thread_cpubind`, `hwloc_get_thread_cpubind`,
`hwloc_set_proc_membind_nodeset`, `hwloc_get_proc_membind_nodeset`,
`hwloc_set_area_membind_nodeset` and `hwloc_get_area_membind_nodeset`, for every
flags value and (for the set functions) every mask the normalisation accepts,
is one call of its own hook when the hook exists, with the result of the hook
returned as it is and `errno` as the hook left it; when the hook is absent it
returns `-1` with `ENOSYS` and calls nothing. -/
theorem single_hook_dispatch (T : Topology) (pid tid : Nat) (addr : Ptr) (len : Nat)
    (R N set nodeset : Bitmap) (policy flags : Int) (s : State) :
    (∀ m, (hwloc_fix_cpubind T R s).1 = some m →
      (∀ hook, T.set_proc_cpubind = some hook →
        hwloc_set_proc_cpubind T pid R flags s
          = invoke (Call.set_proc_cpubind pid m flags) (hook pid m flags) s) ∧
      (T.set_proc_cpubind = none →
        hwloc_set_proc_cpubind T pid R flags s = (-1, set_errno ENOSYS s))) ∧
    ((∀ hook, T.get_proc_cpubind = some hook →
        hwloc_get_proc_cpubind T pid set flags s
          = invoke (Call.get_proc_cpubind pid set flags) (hook pid set flags) s) ∧
      (T.get_proc_cpubind = none →
        hwloc_get_proc_cpubind T pid set flags s = ((-1, set), set_errno ENOSYS s))) ∧
    (∀ m, (hwloc_fix_cpubind T R s).1 = some m →
      (∀ hook, T.set_thread_cpubind = some hook →
        hwloc_set_thread_cpubind T tid R flags s
          = invoke (Call.set_thread_cpubind tid m flags) (hook tid m flags) s) ∧
      (T.set_thread_cpubind = none →
        hwloc_set_thread_cpubind T tid R flags s = (-1, set_errno ENOSYS s))) ∧
    ((∀ hook, T.get_thread_cpubind = some hook →
        hwloc_get_thread_cpubind T tid set flags s
          = invoke (Call.get_thread_cpubind tid set flags) (hook tid set flags) s) ∧
      (T.get_thread_cpubind = none →
        hwloc_get_thread_cpubind T tid set flags s = ((-1, set), set_errno ENOSYS s))) ∧
    (∀ n, (hwloc_fix_membind T N s).1 = some n →
      (∀ hook, T.set_proc_membind = some hook →
        hwloc_set_proc_membind_nodeset T pid N policy flags s
          = invoke (Call.set_proc_membind pid n policy flags) (hook pid n policy flags) s) ∧
      (T.set_proc_membind = none →
        hwloc_set_proc_membind_nodeset T pid N policy flags s = (-1, set_errno ENOSYS s))) ∧
    ((∀ hook, T.get_proc_membind = some hook →
        hwloc_get_proc_membind_nodeset T pid nodeset policy flags s
          = invoke (Call.get_proc_membind pid nodeset policy flags) (hook pid nodeset policy flags) s) ∧
      (T.get_proc_membind = none →
        hwloc_get_proc_membind_nodeset T pid nodeset policy flags s = ((-1, nodeset, policy), set_errno ENOSYS s))) ∧
    (∀ n, (hwloc_fix_membind T N s).1 = some n →
      (∀ hook, T.set_area_membind = some hook →
        hwloc_set_area_membind_nodeset T addr len N policy flags s
          = invoke (Call.set_area_membind addr len n policy flags) (hook addr len n policy flags) s) ∧
      (T.set_area_membind = none →
        hwloc_set_area_membind_nodeset T addr len N policy flags s = (-1, set_errno ENOSYS s))) ∧
    ((∀ hook, T.get_area_membind = some hook →
        hwloc_get_area_membind_nodeset T addr len nodeset policy flags s
          = invoke (Call.get_area_membind addr len nodeset policy flags) (hook addr len nodeset policy flags) s) ∧
      (T.get_area_membind = none →
        hwloc_get_area_membind_nodeset T addr len nodeset policy flags s = ((-1, nodeset, policy), set_errno ENOSYS s))) := by
  have hc : ∀ m, (hwloc_fix_cpubind T R s).1 = some m →
      ∀ s', hwloc_fix_cpubind T R s' = (some m, s') := by
    intro m hm
    rcases fix_cpubind_cases T R with ⟨m', -, -, hf⟩ | ⟨e, -, hf⟩
    · rw [hf] at hm
      simp only [Option.some.injEq] at hm
      subst hm
      exact hf
    · rw [hf] at hm
      simp at hm
  have hn : ∀ n, (hwloc_fix_membind T N s).1 = some n →
      ∀ s', hwloc_fix_membind T N s' = (some n, s') := by
    intro n hn
    rcases fix_membind_cases T N with ⟨n', C, -, -, -, hf⟩ | ⟨e, -, hf⟩
    · rw [hf] at hn
      simp only [Option.some.injEq] at hn
      subst hn
      exact hf
    · rw [hf] at hn
      simp at hn
  refine ⟨?_, ?_, ?_, ?_, ?_, ?_, ?_, ?_⟩
  · intro m hm
    constructor
    · intro hook h
      simp [hwloc_set_proc_cpubind, hc m hm, h]
    · intro h
      simp [hwloc_set_proc_cpubind, hc m hm, h]
  · constructor
    · intro hook h
      simp [hwloc_get_proc_cpubind, h]
    · intro h
      simp [hwloc_get_proc_cpubind, h]
  · intro m hm
    constructor
    · intro hook h
      simp [hwloc_set_thread_cpubind, hc m hm, h]
    · intro h
      simp [hwloc_set_thread_cpubind, hc m hm, h]
  · constructor
    · intro hook h
      simp [hwloc_get_thread_cpubind, h]
    · intro h
      simp [hwloc_get_thread_cpubind, h]
  · intro n hn'
    constructor
    · intro hook h
      simp [hwloc_set_proc_membind_nodeset, hn n hn', h]
    · intro h
      simp [hwloc_set_proc_membind_nodeset, hn n hn', h]
  · constructor
    · intro hook h
      simp [hwloc_get_proc_membind_nodeset, h]
    · intro h
      simp [hwloc_get_proc_membind_nodeset, h]
  · intro n hn'
    constructor
    · intro hook h
      simp [hwloc_set_area_membind_nodeset, hn n hn', h]
    · intro h
      simp [hwloc_set_area_membind_nodeset, hn n hn', h]
  · constructor
    · intro hook h
      simp [hwloc_get_area_membind_nodeset, h]
    · intro h
      simp [hwloc_get_area_membind_nodeset, h]

/-- C15 at a concrete input: on the machine whose area hook fails with `-1` and
`errno` `5`, `hwloc_set_area_membind_nodeset` on the accepted node set `{1}`
calls the hook once and returns its `-1` and its `errno`; on the sample
machine, which has no hook for other processes, `hwloc_set_proc_cpubind` fails
with `ENOSYS` and calls nothing. -/
theorem single_hook_dispatch_witness :
    (hwloc_fix_membind Topology.area_failing {1} State.initial).1 = some {1} ∧
    hwloc_set_area_membind_nodeset Topology.area_failing 4096 16 {1} 0 3 State.initial
      = (-1, { State.initial with
          errno := 5, calls := [Call.set_area_membind 4096 16 {1} 0 3] }) ∧
    (hwloc_fix_cpubind Topology.sample {1} State.initial).1 = some {1} ∧
    hwloc_set_proc_cpubind Topology.sample 7 {1} 3 State.initial
      = (-1, set_errno ENOSYS State.initial) :=
  ⟨by decide,
    ((single_hook_dispatch Topology.area_failing 7 7 4096 16 {1} {1} ∅ ∅ 0 3
      State.initial).2.2.2.2.2.2.1 {1} (by decide)).1 _ rfl,
    by decide,
    ((single_hook_dispatch Topology.sample 7 7 4096 16 {1} {1} ∅ ∅ 0 3
      State.initial).1 {1} (by decide)).2 rfl⟩

/-! ## Get against set -/

theorem new_calls_invoke {α : Type} (c : Call) (f : Ext α) (s : State) :
    s.new_calls (invoke c f s).2 = [c] := by
  simp [State.new_calls, invoke]

theorem new_calls_set_errno (e : Int) (s : State) : s.new_calls (set_errno e s) = [] := by
  simp [State.new_calls, set_errno]

/-- C16: in a capability table where each get hook of the caller exists exactly
when the matching set hook exists, and for every flags value,
`hwloc_get_cpubind` selects the hook of the same scope (calling process, calling
thread, or none) as `hwloc_set_cpubind` does on a mask the normalisation
accepts; when none is selected both fail with `ENOSYS`; and every call
`hwloc_get_cpubind` makes is a call of a get hook. The same holds for
`hwloc_get_membind_nodeset` against `hwloc_set_membind_nodeset`. -/
theorem get_mirrors_set (T : Topology) (R N set nodeset : Bitmap) (policy flags : Int)
    (s : State)
    (hcp : T.get_thisproc_cpubind.isSome = T.set_thisproc_cpubind.isSome)
    (hct : T.get_thisthread_cpubind.isSome = T.set_thisthread_cpubind.isSome)
    (hmp : T.get_thisproc_membind.isSome = T.set_thisproc_membind.isSome)
    (hmt : T.get_thisthread_membind.isSome = T.set_thisthread_membind.isSome) :
    (∀ m, (hwloc_fix_cpubind T R s).1 = some m →
      (s.new_calls (hwloc_get_cpubind T set flags s).2).map Call.scope
        = (s.new_calls (hwloc_set_cpubind T R flags s).2).map Call.scope ∧
      (s.new_calls (hwloc_get_cpubind T set flags s).2 = [] →
        hwloc_get_cpubind T set flags s = ((-1, set), set_errno ENOSYS s) ∧
        hwloc_set_cpubind T R flags s = (-1, set_errno ENOSYS s))) ∧
    (∀ c ∈ s.new_calls (hwloc_get_cpubind T set flags s).2, c.is_get = true) ∧
    (∀ n, (hwloc_fix_membind T N s).1 = some n →
      (s.new_calls (hwloc_get_membind_nodeset T nodeset policy flags s).2).map Call.scope
        = (s.new_calls (hwloc_set_membind_nodeset T N policy flags s).2).map Call.scope ∧
      (s.new_calls (hwloc_get_membind_nodeset T nodeset policy flags s).2 = [] →
        hwloc_get_membind_nodeset T nodeset policy flags s
          = ((-1, nodeset, policy), set_errno ENOSYS s) ∧
        hwloc_set_membind_nodeset T N policy flags s = (-1, set_errno ENOSYS s))) ∧
    (∀ c ∈ s.new_calls (hwloc_get_membind_nodeset T nodeset policy flags s).2,
      c.is_get = true) := by
  refine ⟨?_, ?_, ?_, ?_⟩
  · intro m hm
    rcases fix_cpubind_cases T R with ⟨m', -, -, hf⟩ | ⟨e, -, hf⟩
    · rw [hf] at hm
      simp only [Option.some.injEq] at hm
      subst hm
      cases hP : flag_set flags HWLOC_CPUBIND_PROCESS <;>
        cases hT : flag_set flags HWLOC_CPUBIND_THREAD <;>
        cases h1 : T.get_thisproc_cpubind <;> cases h2 : T.set_thisproc_cpubind <;>
        cases h3 : T.get_thisthread_cpubind <;> cases h4 : T.set_thisthread_cpubind <;>
        simp [h1, h2, h3, h4] at hcp hct <;>
        simp [hwloc_get_cpubind, hwloc_set_cpubind, hf, hP, hT, h1, h2, h3, h4,
          new_calls_invoke, new_calls_set_errno, Call.scope]
    · rw [hf] at hm
      simp at hm
  · intro c
    cases hP : flag_set flags HWLOC_CPUBIND_PROCESS <;>
      cases hT : flag_set flags HWLOC_CPUBIND_THREAD <;>
      cases h1 : T.get_thisproc_cpubind <;>
      cases h3 : T.get_thisthread_cpubind <;>
      simp [hwloc_get_cpubind, hP, hT, h1, h3, new_calls_invoke, new_calls_set_errno] <;>
      rintro rfl <;> rfl
  · intro n hn
    rcases fix_membind_cases T N with ⟨n', C, -, -, -, hf⟩ | ⟨e, -, hf⟩
    · rw [hf] at hn
      simp only [Option.some.injEq] at hn
      subst hn
      cases hP : flag_set flags HWLOC_MEMBIND_PROCESS <;>
        cases hT : flag_set flags HWLOC_MEMBIND_THREAD <;>
        cases h1 : T.get_thisproc_membind <;> cases h2 : T.set_thisproc_membind <;>
        cases h3 : T.get_thisthread_membind <;> cases h4 : T.set_thisthread_membind <;>
        simp [h1, h2, h3, h4] at hmp hmt <;>
        simp [hwloc_get_membind_nodeset, hwloc_set_membind_nodeset, hf, hP, hT, h1, h2, h3,
          h4, new_calls_invoke, new_calls_set_errno, Call.scope]
    · rw [hf] at hn
      simp at hn
  · intro c
    cases hP : flag_set flags HWLOC_MEMBIND_PROCESS <;>
      cases hT : flag_set flags HWLOC_MEMBIND_THREAD <;>
      cases h1 : T.get_thisproc_membind <;>
      cases h3 : T.get_thisthread_membind <;>
      simp [hwloc_get_membind_nodeset, hP, hT, h1, h3, new_calls_invoke,
        new_calls_set_errno] <;>
      rintro rfl <;> rfl

/-- C16 at a concrete input: on the machine with only the hooks of the calling
thread, flags `0` select the hook of the calling thread for get as for set, and
flags `1` select none: both fail with `ENOSYS`. -/
theorem get_mirrors_set_witness :
    (hwloc_fix_cpubind Topology.thread_only {1} State.initial).1 = some {1} ∧
    (State.initial.new_calls (hwloc_get_cpubind Topology.thread_only ∅ 0
      State.initial).2).map Call.scope = [some Scope.thread] ∧
    (State.initial.new_calls (hwloc_get_cpubind Topology.thread_only ∅ 0
      State.initial).2).map Call.scope
      = (State.initial.new_calls (hwloc_set_cpubind Topology.thread_only {1} 0
          State.initial).2).map Call.scope ∧
    hwloc_get_cpubind Topology.thread_only ∅ 1 State.initial
      = ((-1, ∅), set_errno ENOSYS State.initial) ∧
    hwloc_set_cpubind Topology.thread_only {1} 1 State.initial
      = (-1, set_errno ENOSYS State.initial) :=
  have h0 := (get_mirrors_set Topology.thread_only {1} {1} ∅ ∅ 0 0 State.initial
    rfl rfl rfl rfl).1 {1} (by decide)
  have h1 := (get_mirrors_set Topology.thread_only {1} {1} ∅ ∅ 0 1 State.initial
    rfl rfl rfl rfl).1 {1} (by decide)
  ⟨by decide, by decide, h0.1, (h1.2 (by decide)).1, (h1.2 (by decide)).2⟩

/-! ## Temporary node sets -/

theorem set_membind_nodeset_live_bitmaps (T : Topology) (N : Bitmap) (policy flags : Int)
    (s : State) :
    (hwloc_set_membind_nodeset T N policy flags s).2.live_bitmaps = s.live_bitmaps := by
  rcases fix_membind_cases T N with ⟨m, C, -, -, -, hf⟩ | ⟨e, -, hf⟩ <;>
    simp only [hwloc_set_membind_nodeset, hf] <;> (try split_ifs) <;> (repeat' split) <;>
    simp [invoke, set_errno]

theorem set_proc_membind_nodeset_live_bitmaps (T : Topology) (pid : Nat) (N : Bitmap)
    (policy flags : Int) (s : State) :
    (hwloc_set_proc_membind_nodeset T pid N policy flags s).2.live_bitmaps
      = s.live_bitmaps := by
  rcases fix_membind_cases T N with ⟨m, C, -, -, -, hf⟩ | ⟨e, -, hf⟩ <;>
    simp only [hwloc_set_proc_membind_nodeset, hf] <;> (repeat' split) <;>
    simp [invoke, set_errno]

theorem set_area_membind_nodeset_live_bitmaps (T : Topology) (addr : Ptr) (len : Nat)
    (N : Bitmap) (policy flags : Int) (s : State) :
    (hwloc_set_area_membind_nodeset T addr len N policy flags s).2.live_bitmaps
      = s.live_bitmaps := by
  rcases fix_membind_cases T N with ⟨m, C, -, -, -, hf⟩ | ⟨e, -, hf⟩ <;>
    simp only [hwloc_set_area_membind_nodeset, hf] <;> (repeat' split) <;>
    simp [invoke, set_errno]

theorem alloc_membind_nodeset_live_bitmaps (T : Topology) (libc : Libc) (len : Nat)
    (N : Bitmap) (policy flags : Int) (s : State) :
    (hwloc_alloc_membind_nodeset T libc len N policy flags s).2.live_bitmaps
      = s.live_bitmaps := by
  rcases fix_membind_cases T N with ⟨m, C, -, -, -, hf⟩ | ⟨e, -, hf⟩ <;>
    simp only [hwloc_alloc_membind_nodeset, hf] <;> (try split_ifs) <;> (repeat' split) <;>
    simp [invoke, set_errno, free, allocate_live_bitmaps]

theorem get_membind_nodeset_live_bitmaps (T : Topology) (nodeset : Bitmap)
    (policy flags : Int) (s : State) :
    (hwloc_get_membind_nodeset T nodeset policy flags s).2.live_bitmaps
      = s.live_bitmaps := by
  simp only [hwloc_get_membind_nodeset]
  split_ifs <;> (repeat' split) <;> simp [invoke, set_errno]

theorem get_proc_membind_nodeset_live_bitmaps (T : Topology) (pid : Nat) (nodeset : Bitmap)
    (policy flags : Int) (s : State) :
    (hwloc_get_proc_membind_nodeset T pid nodeset policy flags s).2.live_bitmaps
      = s.live_bitmaps := by
  simp only [hwloc_get_proc_membind_nodeset]
  split <;> simp [invoke, set_errno]

theorem get_area_membind_nodeset_live_bitmaps (T : Topology) (addr : Ptr) (len : Nat)
    (nodeset : Bitmap) (policy flags : Int) (s : State) :
    (hwloc_get_area_membind_nodeset T addr len nodeset policy flags s).2.live_bitmaps
      = s.live_bitmaps := by
  simp only [hwloc_get_area_membind_nodeset]
  split <;> simp [invoke, set_errno]

/-- C17, what the code does: `hwloc_set_membind`, `hwloc_set_proc_membind`,
`hwloc_set_area_membind` and `hwloc_alloc_membind` release their temporary node
set on every path, the number of live temporary bitmaps being the same after
the call as before; `hwloc_get_membind`, `hwloc_get_proc_membind` and
`hwloc_get_area_membind` never release theirs: after each call, successful or
not, one more temporary bitmap is live. -/
theorem temporary_nodeset_accounting (T : Topology) (libc : Libc) (pid : Nat) (addr : Ptr)
    (len : Nat) (set : Bitmap) (policy flags : Int) (s : State) :
    (hwloc_set_membind T set policy flags s).2.live_bitmaps = s.live_bitmaps ∧
    (hwloc_set_proc_membind T pid set policy flags s).2.live_bitmaps = s.live_bitmaps ∧
    (hwloc_set_area_membind T addr len set policy flags s).2.live_bitmaps
      = s.live_bitmaps ∧
    (hwloc_alloc_membind T libc len set policy flags s).2.live_bitmaps = s.live_bitmaps ∧
    (hwloc_get_membind T set policy flags s).2.live_bitmaps = s.live_bitmaps + 1 ∧
    (hwloc_get_proc_membind T pid set policy flags s).2.live_bitmaps
      = s.live_bitmaps + 1 ∧
    (hwloc_get_area_membind T addr len set policy flags s).2.live_bitmaps
      = s.live_bitmaps + 1 := by
  refine ⟨?_, ?_, ?_, ?_, ?_, ?_, ?_⟩
  · rcases fix_membind_cpuset_cases T ∅ set with ⟨ns, -, h⟩ | ⟨e, -, h⟩ <;>
      simp [hwloc_set_membind, hwloc_bitmap_alloc, h, hwloc_bitmap_free, set_errno,
        set_membind_nodeset_live_bitmaps]
  · rcases fix_membind_cpuset_cases T ∅ set with ⟨ns, -, h⟩ | ⟨e, -, h⟩ <;>
      simp [hwloc_set_proc_membind, hwloc_bitmap_alloc, h, hwloc_bitmap_free, set_errno,
        set_proc_membind_nodeset_live_bitmaps]
  · rcases fix_membind_cpuset_cases T ∅ set with ⟨ns, -, h⟩ | ⟨e, -, h⟩ <;>
      simp [hwloc_set_area_membind, hwloc_bitmap_alloc, h, hwloc_bitmap_free, set_errno,
        set_area_membind_nodeset_live_bitmaps]
  · rcases fix_membind_cpuset_cases T ∅ set with ⟨ns, -, h⟩ | ⟨e, -, h⟩ <;>
      simp [hwloc_alloc_membind, hwloc_bitmap_alloc, h, hwloc_bitmap_free, set_errno,
        alloc_membind_nodeset_live_bitmaps]
  · simp only [hwloc_get_membind, hwloc_bitmap_alloc]
    split_ifs <;> simp [get_membind_nodeset_live_bitmaps]
  · simp only [hwloc_get_proc_membind, hwloc_bitmap_alloc]
    split_ifs <;> simp [get_proc_membind_nodeset_live_bitmaps]
  · simp only [hwloc_get_area_membind, hwloc_bitmap_alloc]
    split_ifs <;> simp [get_area_membind_nodeset_live_bitmaps]

/-- C17 at a concrete input: on the sample machine `hwloc_get_membind` succeeds
and leaves its temporary node set live. -/
theorem temporary_nodeset_accounting_witness :
    (hwloc_get_membind Topology.sample ∅ 0 0 State.initial).1.1 = 0 ∧
    (hwloc_get_membind Topology.sample ∅ 0 0 State.initial).2.live_bitmaps
      = State.initial.live_bitmaps + 1 :=
  ⟨by decide,
    (temporary_nodeset_accounting Topology.sample Libc.working 0 0 0 ∅ 0 0
      State.initial).2.2.2.2.1⟩

/-! ## Memory requests expressed as a cpuset -/

/-- C18: on a topology with a usable cpuset `U` and a complete node set `CN`,
for a cpuset `C` within the complete cpuset, `hwloc_fix_membind_cpuset` succeeds
and writes `CN` when `U` is within `C`, whatever the translation from cpusets to
node sets is, and the translation of `C` otherwise. It fails with `EXDEV`
without usable cpuset, else with `ENODEV` without complete node set, else with
`EINVAL` when `C` is not within the complete cpuset. And when `U` is within
`C`, `hwloc_set_membind` is `hwloc_set_membind_nodeset` on `CN` between the
allocation and the release of the temporary node set, and every node set a hook
receives from it is `CN`. -/
theorem cpuset_expressed_memory_request (T : Topology) (n C : Bitmap) (policy flags : Int)
    (s : State) :
    (∀ U CN, T.topology_cpuset = some U → T.complete_nodeset = some CN →
      C ⊆ T.complete_cpuset →
      (U ⊆ C → ∀ f,
        hwloc_fix_membind_cpuset { T with cpuset_to_nodeset := f } n C s = ((0, CN), s)) ∧
      (¬ U ⊆ C → hwloc_fix_membind_cpuset T n C s = ((0, T.cpuset_to_nodeset C), s)) ∧
      (U ⊆ C →
        hwloc_set_membind T C policy flags s
          = ((hwloc_set_membind_nodeset T CN policy flags (hwloc_bitmap_alloc s).2).1,
              hwloc_bitmap_free
                (hwloc_set_membind_nodeset T CN policy flags (hwloc_bitmap_alloc s).2).2) ∧
        ∃ new, (hwloc_set_membind T C policy flags s).2.calls = s.calls ++ new ∧
          ∀ c ∈ new, c.passed_cpuset = none ∧
            ∀ m, c.passed_nodeset = some m → m = CN)) ∧
    (T.topology_cpuset = none →
      hwloc_fix_membind_cpuset T n C s = ((-1, n), set_errno EXDEV s)) ∧
    (∀ U, T.topology_cpuset = some U → T.complete_nodeset = none →
      hwloc_fix_membind_cpuset T n C s = ((-1, n), set_errno ENODEV s)) ∧
    (∀ U CN, T.topology_cpuset = some U → T.complete_nodeset = some CN →
      ¬ C ⊆ T.complete_cpuset →
      hwloc_fix_membind_cpuset T n C s = ((-1, n), set_errno EINVAL s)) := by
  refine ⟨?_, ?_, ?_, ?_⟩
  · intro U CN hU hCN hC
    refine ⟨?_, ?_, ?_⟩
    · intro hUC f
      simp [hwloc_fix_membind_cpuset, hU, hCN, hwloc_bitmap_isincluded, hC, hUC]
    · intro hUC
      simp [hwloc_fix_membind_cpuset, hU, hCN, hwloc_bitmap_isincluded, hC, hUC]
    · intro hUC
      have hfix : ∀ n' s', hwloc_fix_membind_cpuset T n' C s' = ((0, CN), s') := by
        intro n' s'
        simp [hwloc_fix_membind_cpuset, hU, hCN, hwloc_bitmap_isincluded, hC, hUC]
      refine ⟨by simp [hwloc_set_membind, hfix], ?_⟩
      obtain ⟨new, hnew, hcar⟩ := set_membind_grows T C policy flags s
      have hnorm : (fix_membind_of_cpuset T C s).1 = some CN := by
        simp [fix_membind_of_cpuset, hfix, fix_membind_complete T U CN hU hCN]
      refine ⟨new, hnew, fun c hc => ⟨?_, fun m hm => ?_⟩⟩
      · cases hpc : c.passed_cpuset with
        | none => rfl
        | some m =>
          have := (hcar c hc).1 m hpc
          simp at this
      · have := (hcar c hc).2 m hm
        rw [hnorm] at this
        simpa using this.symm
  · intro hU
    simp [hwloc_fix_membind_cpuset, hU]
  · intro U hU hCN
    simp [hwloc_fix_membind_cpuset, hU, hCN]
  · intro U CN hU hCN hC
    simp [hwloc_fix_membind_cpuset, hU, hCN, hwloc_bitmap_isincluded, hC]

/-- C18 at a concrete input: on the sample machine the cpuset `{0}` covers the
usable cpuset, and `hwloc_set_membind` hands the complete node set `{0, 1}` to
the hook of the calling process; the cpuset `{1}` does not, and is translated
(to `{1}`, the translation of the sample machine being the identity). -/
theorem cpuset_expressed_memory_request_witness :
    (hwloc_set_membind Topology.sample {0} 0 0 State.initial).2.calls
      = [Call.set_thisproc_membind {0, 1} 0 0] ∧
    hwloc_fix_membind_cpuset Topology.sample ∅ {0} State.initial
      = ((0, {0, 1}), State.initial) ∧
    hwloc_fix_membind_cpuset Topology.sample ∅ {1} State.initial
      = ((0, {1}), State.initial) :=
  have h0 := (cpuset_expressed_memory_request Topology.sample ∅ {0} 0 0 State.initial).1
    {0} {0, 1} rfl rfl (by decide)
  have h1 := (cpuset_expressed_memory_request Topology.sample ∅ {1} 0 0 State.initial).1
    {0} {0, 1} rfl rfl (by decide)
  ⟨by decide, h0.1 (by decide) (fun set => set), h1.2.1 (by decide)⟩

/-! ## Allocation without the strict bit -/

/-- C20: with both scope bits set, `hwloc_set_cpubind` (on a mask the
normalisation accepts as `m`), `hwloc_get_cpubind`, `hwloc_set_membind_nodeset`
(on a node set accepted as `n`) and `hwloc_get_membind_nodeset` do what they do
with the process bit: they call the hook of the calling process, with the flags
as given, when it exists, and fail with `ENOSYS`, calling nothing, when it is
absent, whether or not the hook of the calling thread exists. -/
theorem both_scope_bits (T : Topology) (R N set nodeset : Bitmap) (policy flags : Int)
    (s : State) :
    (flag_set flags HWLOC_CPUBIND_PROCESS = true →
      flag_set flags HWLOC_CPUBIND_THREAD = true →
      (∀ m, (hwloc_fix_cpubind T R s).1 = some m →
        (∀ hook, T.set_thisproc_cpubind = some hook →
          hwloc_set_cpubind T R flags s
            = invoke (Call.set_thisproc_cpubind m flags) (hook m flags) s) ∧
        (T.set_thisproc_cpubind = none →
          hwloc_set_cpubind T R flags s = (-1, set_errno ENOSYS s))) ∧
      (∀ hook, T.get_thisproc_cpubind = some hook →
        hwloc_get_cpubind T set flags s
          = invoke (Call.get_thisproc_cpubind set flags) (hook set flags) s) ∧
      (T.get_thisproc_cpubind = none →
        hwloc_get_cpubind T set flags s = ((-1, set), set_errno ENOSYS s))) ∧
    (flag_set flags HWLOC_MEMBIND_PROCESS = true →
      flag_set flags HWLOC_MEMBIND_THREAD = true →
      (∀ n, (hwloc_fix_membind T N s).1 = some n →
        (∀ hook, T.set_thisproc_membind = some hook →
          hwloc_set_membind_nodeset T N policy flags s
            = invoke (Call.set_thisproc_membind n policy flags) (hook n policy flags) s) ∧
        (T.set_thisproc_membind = none →
          hwloc_set_membind_nodeset T N policy flags s = (-1, set_errno ENOSYS s))) ∧
      (∀ hook, T.get_thisproc_membind = some hook →
        hwloc_get_membind_nodeset T nodeset policy flags s
          = invoke (Call.get_thisproc_membind nodeset policy flags)
              (hook nodeset policy flags) s) ∧
      (T.get_thisproc_membind = none →
        hwloc_get_membind_nodeset T nodeset policy flags s
          = ((-1, nodeset, policy), set_errno ENOSYS s))) := by
  constructor
  · intro hP _
    refine ⟨?_, ?_, ?_⟩
    · intro m hm
      rcases fix_cpubind_cases T R with ⟨m', -, -, hf⟩ | ⟨e, -, hf⟩
      · rw [hf] at hm
        simp only [Option.some.injEq] at hm
        subst hm
        constructor
        · intro hook hp
          simp [hwloc_set_cpubind, hf, hP, hp]
        · intro hp
          simp [hwloc_set_cpubind, hf, hP, hp]
      · rw [hf] at hm
        simp at hm
    · intro hook hp
      simp [hwloc_get_cpubind, hP, hp]
    · intro hp
      simp [hwloc_get_cpubind, hP, hp]
  · intro hP _
    refine ⟨?_, ?_, ?_⟩
    · intro n hn
      rcases fix_membind_cases T N with ⟨n', C, -, -, -, hf⟩ | ⟨e, -, hf⟩
      · rw [hf] at hn
        simp only [Option.some.injEq] at hn
        subst hn
        constructor
        · intro hook hp
          simp [hwloc_set_membind_nodeset, hf, hP, hp]
        · intro hp
          simp [hwloc_set_membind_nodeset, hf, hP, hp]
      · rw [hf] at hn
        simp at hn
    · intro hook hp
      simp [hwloc_get_membind_nodeset, hP, hp]
    · intro hp
      simp [hwloc_get_membind_nodeset, hP, hp]

/-- C20 at a concrete input: with flags `3` the sample machine sends the accepted
node set `{1}` to the hook of the calling process with flags `3`, and the
machine with only the hooks of the calling thread fails with `ENOSYS`. -/
theorem both_scope_bits_witness :
    flag_set 3 HWLOC_MEMBIND_PROCESS = true ∧
    flag_set 3 HWLOC_MEMBIND_THREAD = true ∧
    (hwloc_fix_membind Topology.sample {1} State.initial).1 = some {1} ∧
    (hwloc_set_membind_nodeset Topology.sample {1} 0 3 State.initial).2.calls
      = [Call.set_thisproc_membind {1} 0 3] ∧
    hwloc_set_membind_nodeset Topology.thread_only {1} 0 3 State.initial
      = (-1, set_errno ENOSYS State.initial) := by
  have h := ((both_scope_bits Topology.sample {1} {1} ∅ ∅ 0 3 State.initial).2
    (by decide) (by decide)).1 {1} (by decide)
  have h' := ((both_scope_bits Topology.thread_only {1} {1} ∅ ∅ 0 3 State.initial).2
    (by decide) (by decide)).1 {1} (by decide)
  refine ⟨by decide, by decide, by decide, ?_, h'.2 rfl⟩
  rw [h.1 _ rfl]
  rfl

end Hwloc
